import Mathlib

/-!
Verification of the pdf-forge HTML-to-PDF layout pipeline.

This file gives a shallow embedding, in Lean, of the core pipeline of the
repository (src/dom.rs, src/style.rs, src/fonts.rs, src/layout.rs,
src/pagination.rs, src/pipeline.rs) and proves properties of it.

Modelling conventions:
* Rust `f32` values are modelled as `ℚ` (the arithmetic used by the code is
  `+ - * / max`, which is exact on rationals; floating-point rounding is not
  modelled).
* Rust `String`/`&str` cursors are modelled as `List Char` (the Rust parser
  advances by whole characters, so a character-list cursor is equivalent to
  its byte-position cursor).
* Rust `HashMap<String, String>` attribute maps are modelled as association
  lists with replace-on-insert, which is faithful for every lookup the code
  performs.
* Loops become structural recursion; the one loop in the source that can
  fail to make progress (the attribute loop of `parse_element`) is given
  explicit fuel, and its divergence is proved below.
* `char::is_alphanumeric` / `char::is_whitespace` / `to_ascii_lowercase`
  are modelled with `Char.isAlphanum` / `Char.isWhitespace` / `Char.toLower`,
  which agree on the ASCII inputs used in all concrete statements.
-/

namespace PdfForge

/-- Character class used by `parse_tag_name` in src/dom.rs (alphanumeric,
hyphen, or underscore). -/
def is_name_char (c : Char) : Bool := c.isAlphanum || c = '-' || c = '_'

/-- The scanning loop of `str::replace`, structurally recursive on fuel.
Each step consumes at least one input character, so fuel equal to the
input length never runs out. -/
def replace_all_go (p0 : Char) (ps rep : List Char) : Nat → List Char → List Char
  | 0, s => s
  | Nat.succ f, s =>
    match s with
    | [] => []
    | c :: cs =>
      if (p0 :: ps).isPrefixOf (c :: cs) then
        rep ++ replace_all_go p0 ps rep f (cs.drop ps.length)
      else c :: replace_all_go p0 ps rep f cs

/-- `str::replace` from the Rust standard library, specialised to a nonempty
pattern `p0 :: ps`, replacing every occurrence left-to-right. -/
def replace_all (p0 : Char) (ps rep : List Char) (s : List Char) : List Char :=
  replace_all_go p0 ps rep s.length s

/-- `decode_entities` from src/dom.rs: seven sequential replacements, in the
order the source applies them. -/
def decode_entities (s : List Char) : List Char :=
  let s1 := replace_all '&' "amp;".data "&".data s
  let s2 := replace_all '&' "lt;".data "<".data s1
  let s3 := replace_all '&' "gt;".data ">".data s2
  let s4 := replace_all '&' "quot;".data "\"".data s3
  let s5 := replace_all '&' "#39;".data "'".data s4
  let s6 := replace_all '&' "apos;".data "'".data s5
  replace_all '&' "nbsp;".data [Char.ofNat 160] s6

/-- `str::to_ascii_lowercase`: `Char.toLower` maps exactly the ASCII
uppercase letters. -/
def to_ascii_lower (s : String) : String := String.mk (s.data.map Char.toLower)

/-- `f32::max`, on the rational model. -/
def fmax (a b : ℚ) : ℚ := if a < b then b else a

/-- The `Tag` enumeration from src/dom.rs. -/
inductive Tag where
  | div | p | h1 | h2 | h3 | ul | ol | li | table | tr | td | th
  | span | img | body | html | head
  | unknown (name : String)
deriving DecidableEq, Repr

/-- `Tag::from_str` from src/dom.rs: the tag name is ASCII-lowercased before
matching; unrecognised names become `unknown` carrying the original string. -/
def Tag.from_str (s : String) : Tag :=
  match to_ascii_lower s with
  | "div" => Tag.div
  | "p" => Tag.p
  | "h1" => Tag.h1
  | "h2" => Tag.h2
  | "h3" => Tag.h3
  | "ul" => Tag.ul
  | "ol" => Tag.ol
  | "li" => Tag.li
  | "table" => Tag.table
  | "tr" => Tag.tr
  | "td" => Tag.td
  | "th" => Tag.th
  | "span" => Tag.span
  | "img" => Tag.img
  | "body" => Tag.body
  | "html" => Tag.html
  | "head" => Tag.head
  | _ => Tag.unknown s

/-- A DOM node (src/dom.rs): an element with tag, attribute map and children,
or a text leaf. -/
inductive DomNode where
  | element (tag : Tag) (attributes : List (String × String)) (children : List DomNode)
  | text (s : String)
deriving Repr

/-- `HashMap::insert`: replace the binding for the key if present, else add. -/
def insertAttr : List (String × String) → String → String → List (String × String)
  | [], k, v => [(k, v)]
  | (k0, v0) :: rest, k, v =>
    if k0 = k then (k, v) :: rest else (k0, v0) :: insertAttr rest k v

/-- `HashMap::get` on the attribute map. -/
def lookupAttr : List (String × String) → String → Option String
  | [], _ => none
  | (k0, v0) :: rest, k => if k0 = k then some v0 else lookupAttr rest k

/-- `skip_whitespace` from src/dom.rs. -/
def skip_whitespace : List Char → List Char
  | [] => []
  | c :: cs => if c.isWhitespace then skip_whitespace cs else c :: cs

/-- `skip_whitespace_preserve` from src/dom.rs: skip a whitespace run, but
revert the skip unless it ended at EOF or at a tag opener. -/
def skip_whitespace_preserve (rem : List Char) : List Char :=
  let rem2 := skip_whitespace rem
  if rem2 ≠ [] ∧ ¬ ['<'].isPrefixOf rem2 then rem else rem2

/-- The scanning loop of `skip_comment` in src/dom.rs: advance until the
closing marker, then step over it. -/
def drop_until_comment_close : List Char → List Char
  | [] => []
  | c :: cs =>
    if ['-', '-', '>'].isPrefixOf (c :: cs) then (c :: cs).drop 3
    else drop_until_comment_close cs

/-- `skip_comment` from src/dom.rs. -/
def skip_comment (rem : List Char) : List Char :=
  drop_until_comment_close (rem.drop 4)

/-- The doctype / processing-instruction skip in `parse_node`
(src/dom.rs): drop up to and including the next unquoted one-character
closer. -/
def drop_until_gt : List Char → List Char
  | [] => []
  | c :: cs => if c = '>' then cs else drop_until_gt cs

/-- `parse_tag_name` from src/dom.rs: take the maximal run of name
characters, returning it with the rest of the input. -/
def parse_tag_name : List Char → List Char × List Char
  | [] => ([], [])
  | c :: cs =>
    if is_name_char c then
      let r := parse_tag_name cs
      (c :: r.1, r.2)
    else ([], c :: cs)

/-- `parse_attr_value` from src/dom.rs. Quoted values are entity-decoded;
unquoted values are not (exactly as in the source). -/
def parse_attr_value (rem : List Char) : List Char × List Char :=
  match rem with
  | '"' :: cs =>
    let v := cs.takeWhile (fun c => c ≠ '"')
    let rest := cs.dropWhile (fun c => c ≠ '"')
    (decode_entities v, if rest = [] then [] else rest.drop 1)
  | '\'' :: cs =>
    let v := cs.takeWhile (fun c => c ≠ '\'')
    let rest := cs.dropWhile (fun c => c ≠ '\'')
    (decode_entities v, if rest = [] then [] else rest.drop 1)
  | _ =>
    let v := rem.takeWhile (fun c => ¬ (c.isWhitespace || c = '>' || c = '/'))
    (v, rem.dropWhile (fun c => ¬ (c.isWhitespace || c = '>' || c = '/')))

/-- `parse_attribute` from src/dom.rs: returns (key, value, rest). A missing
`=` yields an empty value; note that the key is taken verbatim from the
input (no lowercasing). -/
def parse_attribute (rem : List Char) : List Char × List Char × List Char :=
  let kr := parse_tag_name rem
  let r2 := skip_whitespace kr.2
  if ['='].isPrefixOf r2 then
    let vr := parse_attr_value (skip_whitespace (r2.drop 1))
    (kr.1, vr.1, vr.2)
  else (kr.1, [], r2)

/-- `parse_text` from src/dom.rs: a text node is the run up to the next tag
opener, entity-decoded. -/
def parse_text (rem : List Char) : DomNode × List Char :=
  (DomNode.text (String.mk (decode_entities (rem.takeWhile (fun c => c ≠ '<')))),
   rem.dropWhile (fun c => c ≠ '<'))

mutual

/-- `parse_nodes` from src/dom.rs, with explicit fuel. Each loop iteration
and each recursive descent consumes one unit of fuel; `none` means the fuel
ran out (the source loops forever in exactly those cases, see the attribute
loop divergence proved below). -/
def parse_nodes : Nat → List Char → Option (List DomNode × List Char)
  | 0, _ => none
  | Nat.succ fuel, rem =>
    let rem1 := skip_whitespace_preserve rem
    if rem1 = [] ∨ ['<', '/'].isPrefixOf rem1 then some ([], rem1)
    else
      match parse_node fuel rem1 with
      | none => none
      | some (n, rem2) =>
        match parse_nodes fuel rem2 with
        | none => none
        | some (ns, rem3) => some (n.toList ++ ns, rem3)

/-- `parse_node` from src/dom.rs: comments and doctype-like constructs are
dropped (`none` node), tags become elements, anything else is text. -/
def parse_node : Nat → List Char → Option (Option DomNode × List Char)
  | 0, _ => none
  | Nat.succ fuel, rem =>
    if ['<', '!', '-', '-'].isPrefixOf rem then some (none, skip_comment rem)
    else if ['<', '!'].isPrefixOf rem ∨ ['<', '?'].isPrefixOf rem then
      some (none, drop_until_gt rem)
    else if ['<'].isPrefixOf rem then
      match parse_element fuel rem with
      | none => none
      | some (e, rest) => some (some e, rest)
    else
      let tr := parse_text rem
      some (some tr.1, tr.2)

/-- `parse_element` from src/dom.rs: consume the opener, the tag name, the
attribute loop, then either self-close or recurse for children and consume a
(not necessarily matching) closing tag. -/
def parse_element : Nat → List Char → Option (DomNode × List Char)
  | 0, _ => none
  | Nat.succ fuel, rem =>
    let rem1 := rem.drop 1
    let nr := parse_tag_name rem1
    let tag := Tag.from_str (String.mk nr.1)
    match attr_loop fuel [] nr.2 with
    | none => none
    | some (attrs, rem3) =>
      if ['/', '>'].isPrefixOf rem3 then some (DomNode.element tag attrs [], rem3.drop 2)
      else
        let rem4 := if ['>'].isPrefixOf rem3 then rem3.drop 1 else rem3
        if tag = Tag.img then some (DomNode.element tag attrs [], rem4)
        else
          match parse_nodes fuel rem4 with
          | none => none
          | some (children, rem5) =>
            let rem9 :=
              if ['<', '/'].isPrefixOf rem5 then
                let r7 := parse_tag_name (rem5.drop 2)
                let rem8 := skip_whitespace r7.2
                if ['>'].isPrefixOf rem8 then rem8.drop 1 else rem8
              else rem5
            some (DomNode.element tag attrs children, rem9)

/-- The attribute loop inside `parse_element` (src/dom.rs). When the next
character is not a name character and not `=`, `/`, `>` or whitespace,
`parse_attribute` consumes nothing and the Rust loop repeats forever; here
that shows up as fuel exhaustion. -/
def attr_loop : Nat → List (String × String) → List Char → Option (List (String × String) × List Char)
  | 0, _, _ => none
  | Nat.succ fuel, attrs, rem =>
    let rem1 := skip_whitespace rem
    if rem1 = [] ∨ ['>'].isPrefixOf rem1 ∨ ['/', '>'].isPrefixOf rem1 then some (attrs, rem1)
    else
      let kvr := parse_attribute rem1
      attr_loop fuel (insertAttr attrs (String.mk kvr.1) (String.mk kvr.2.1)) kvr.2.2

end

/-- `parse_html` from src/dom.rs, run with fuel generous enough for every
input on which the Rust parser terminates; `none` models divergence. -/
def parse_html (s : String) : Option (List DomNode) :=
  match parse_nodes (4 * s.length + 16) s.data with
  | some (ns, _) => some ns
  | none => none

mutual

/-- All attribute names stored in one DOM node, in traversal order. -/
def node_attr_names : DomNode → List String
  | DomNode.element _ attrs children => attrs.map Prod.fst ++ all_attr_names children
  | DomNode.text _ => []

/-- All attribute names stored anywhere in a DOM forest, in traversal
order. -/
def all_attr_names : List DomNode → List String
  | [] => []
  | n :: rest => node_attr_names n ++ all_attr_names rest

end

/-! ## Style resolver (src/style.rs) -/

/-- The scanning loop of `str::split_whitespace`, structurally recursive on
fuel; each step consumes at least one input character. -/
def split_ws_go : Nat → List Char → List (List Char)
  | 0, _ => []
  | Nat.succ f, s =>
    match s with
    | [] => []
    | c :: cs =>
      if c.isWhitespace then split_ws_go f cs
      else (c :: cs.takeWhile (fun d => !d.isWhitespace)) ::
        split_ws_go f (cs.dropWhile (fun d => !d.isWhitespace))

/-- `str::split_whitespace`: the maximal whitespace-free tokens, in order. -/
def split_ws (s : List Char) : List (List Char) :=
  split_ws_go s.length s

/-- `str::split` on a separator character, keeping empty pieces (as Rust
does). -/
def split_on (sep : Char) : List Char → List (List Char)
  | [] => [[]]
  | c :: cs =>
    if c = sep then [] :: split_on sep cs
    else
      match split_on sep cs with
      | [] => [[c]]
      | h :: t => (c :: h) :: t

/-- `str::trim`. -/
def trim_chars (s : List Char) : List Char :=
  ((s.dropWhile Char.isWhitespace).reverse.dropWhile Char.isWhitespace).reverse

/-- Helper for `trim_end_matches("px")`: strips repeated `px` suffixes from a
reversed character list. -/
def drop_px_rev : List Char → List Char
  | 'x' :: 'p' :: rest => drop_px_rev rest
  | r => r

/-- The value of a digit run, base 10. -/
def digits_to_nat (ds : List Char) : ℕ :=
  ds.foldl (fun acc c => acc * 10 + (c.toNat - 48)) 0

/-- `str::parse::<f32>` modelled on the decimal-literal subset (optional
sign, digits, optional fractional part). Exponent forms, `inf` and `NaN`
are not modelled; no claim below evaluates those inputs. -/
def parse_float (s : List Char) : Option ℚ :=
  let sr : ℚ × List Char :=
    match s with
    | '-' :: r => (-1, r)
    | '+' :: r => (1, r)
    | r => (1, r)
  let intPart := sr.2.takeWhile Char.isDigit
  let rest2 := sr.2.dropWhile Char.isDigit
  match rest2 with
  | [] => if intPart = [] then none else some (sr.1 * digits_to_nat intPart)
  | '.' :: frac =>
    let fracD := frac.takeWhile Char.isDigit
    let rest3 := frac.dropWhile Char.isDigit
    if rest3 ≠ [] then none
    else if intPart = [] ∧ fracD = [] then none
    else some (sr.1 * ((digits_to_nat intPart : ℚ) +
      (digits_to_nat fracD : ℚ) / (10 ^ fracD.length)))
  | _ => none

/-- `usize::from_str` modelled on digit runs with an optional leading `+`. -/
def parse_usize (s : List Char) : Option ℕ :=
  let r := match s with
    | '+' :: r => r
    | r => r
  if r = [] ∨ ¬ r.all Char.isDigit then none else some (digits_to_nat r)

/-- The `Display` enumeration from src/style.rs. -/
inductive Display where
  | block | flex | grid | inline | inline_block | list_item
  | table_row | table_cell | none
deriving DecidableEq, Repr

inductive FlexDirection where
  | row | column
deriving DecidableEq, Repr

inductive FlexWrap where
  | no_wrap | wrap
deriving DecidableEq, Repr

inductive JustifyContent where
  | start | «end» | center | space_between | space_around | space_evenly
deriving DecidableEq, Repr

inductive AlignItems where
  | start | «end» | center | stretch
deriving DecidableEq, Repr

inductive FontWeight where
  | normal | bold
deriving DecidableEq, Repr

inductive TextAlign where
  | left | center | right
deriving DecidableEq, Repr

inductive TextDecoration where
  | none | underline
deriving DecidableEq, Repr

inductive FontStyle where
  | normal | italic
deriving DecidableEq, Repr

/-- The `Dimension` enumeration from src/style.rs. -/
inductive Dim where
  | auto
  | px (v : ℚ)
  | percent (v : ℚ)
deriving DecidableEq, Repr

inductive GridTrack where
  | px (v : ℚ)
  | fr (v : ℚ)
  | auto
deriving DecidableEq, Repr

/-- RGBA colour in [0,1] (src/style.rs). -/
structure Color where
  r : ℚ
  g : ℚ
  b : ℚ
  a : ℚ
deriving DecidableEq, Repr

def Color.BLACK : Color := ⟨0, 0, 0, 1⟩
def Color.WHITE : Color := ⟨1, 1, 1, 1⟩
def Color.TRANSPARENT : Color := ⟨0, 0, 0, 0⟩

/-- `Color::is_transparent`: alpha below 0.001. -/
def Color.is_transparent (c : Color) : Bool := c.a < 1 / 1000

/-- One hexadecimal digit (both cases), as `u8::from_str_radix(_, 16)`
accepts. -/
def hex_digit (c : Char) : Option ℕ :=
  if '0' ≤ c ∧ c ≤ '9' then some (c.toNat - 48)
  else if 'a' ≤ c ∧ c ≤ 'f' then some (c.toNat - 87)
  else if 'A' ≤ c ∧ c ≤ 'F' then some (c.toNat - 55)
  else none

/-- A two-digit hex byte scaled to [0,1]. -/
def hex_pair (c1 c2 : Char) : Option ℚ := do
  let h ← hex_digit c1
  let l ← hex_digit c2
  pure ((h * 16 + l : ℕ) / 255 : ℚ)

/-- `Color::from_hex` from src/style.rs: `#rrggbb` or `#rgb` (leading `#`s
stripped), alpha 1. -/
def Color.from_hex (hex : String) : Option Color :=
  match hex.data.dropWhile (fun c => c = '#') with
  | [r1, r2, g1, g2, b1, b2] => do
    let r ← hex_pair r1 r2
    let g ← hex_pair g1 g2
    let b ← hex_pair b1 b2
    pure ⟨r, g, b, 1⟩
  | [r1, g1, b1] => do
    let r ← hex_pair r1 r1
    let g ← hex_pair g1 g1
    let b ← hex_pair b1 b1
    pure ⟨r, g, b, 1⟩
  | _ => none

/-- The fully resolved style record from src/style.rs, field for field. -/
structure ComputedStyle where
  display : Display
  flex_direction : FlexDirection
  flex_wrap : FlexWrap
  flex_grow : ℚ
  flex_shrink : ℚ
  justify_content : JustifyContent
  align_items : AlignItems
  gap : ℚ
  grid_template_columns : List GridTrack
  grid_template_rows : List GridTrack
  width : Dim
  height : Dim
  min_width : Dim
  max_width : Dim
  margin_top : ℚ
  margin_right : ℚ
  margin_bottom : ℚ
  margin_left : ℚ
  padding_top : ℚ
  padding_right : ℚ
  padding_bottom : ℚ
  padding_left : ℚ
  border_width : ℚ
  border_color : Color
  font_size : ℚ
  font_weight : FontWeight
  font_family : String
  color : Color
  text_align : TextAlign
  line_height : ℚ
  text_decoration : TextDecoration
  font_style : FontStyle
  background_color : Color
  page_break_before : Bool
  page_break_after : Bool
  page_break_inside_avoid : Bool
deriving DecidableEq, Repr

/-- `ComputedStyle::default` from src/style.rs. -/
def defaultStyle : ComputedStyle where
  display := Display.block
  flex_direction := FlexDirection.row
  flex_wrap := FlexWrap.no_wrap
  flex_grow := 0
  flex_shrink := 1
  justify_content := JustifyContent.start
  align_items := AlignItems.stretch
  gap := 0
  grid_template_columns := []
  grid_template_rows := []
  width := Dim.auto
  height := Dim.auto
  min_width := Dim.auto
  max_width := Dim.auto
  margin_top := 0
  margin_right := 0
  margin_bottom := 0
  margin_left := 0
  padding_top := 0
  padding_right := 0
  padding_bottom := 0
  padding_left := 0
  border_width := 0
  border_color := Color.BLACK
  font_size := 16
  font_weight := FontWeight.normal
  font_family := "Helvetica"
  color := Color.BLACK
  text_align := TextAlign.left
  line_height := 7 / 5
  text_decoration := TextDecoration.none
  font_style := FontStyle.normal
  background_color := Color.TRANSPARENT
  page_break_before := false
  page_break_after := false
  page_break_inside_avoid := false

/-- `base_style_for_tag` from src/style.rs: the per-tag default record. -/
def base_style_for_tag (tag : Tag) : ComputedStyle :=
  match tag with
  | Tag.h1 => { defaultStyle with
      font_size := 32, font_weight := FontWeight.bold,
      margin_top := 16, margin_bottom := 12 }
  | Tag.h2 => { defaultStyle with
      font_size := 24, font_weight := FontWeight.bold,
      margin_top := 14, margin_bottom := 10 }
  | Tag.h3 => { defaultStyle with
      font_size := 20, font_weight := FontWeight.bold,
      margin_top := 12, margin_bottom := 8 }
  | Tag.p => { defaultStyle with margin_top := 0, margin_bottom := 10 }
  | Tag.ul => { defaultStyle with
      margin_top := 0, margin_bottom := 10, padding_left := 24 }
  | Tag.ol => { defaultStyle with
      margin_top := 0, margin_bottom := 10, padding_left := 24 }
  | Tag.li => { defaultStyle with
      display := Display.list_item, margin_bottom := 4 }
  | Tag.table => { defaultStyle with
      display := Display.grid, border_width := 1,
      page_break_inside_avoid := false }
  | Tag.tr => { defaultStyle with display := Display.table_row }
  | Tag.td => { defaultStyle with
      display := Display.table_cell,
      padding_top := 4, padding_right := 8, padding_bottom := 4,
      padding_left := 8, border_width := 1 }
  | Tag.th => { defaultStyle with
      display := Display.table_cell,
      padding_top := 4, padding_right := 8, padding_bottom := 4,
      padding_left := 8, border_width := 1,
      font_weight := FontWeight.bold,
      background_color := ⟨93 / 100, 93 / 100, 93 / 100, 1⟩ }
  | Tag.span => { defaultStyle with display := Display.inline }
  | Tag.img => { defaultStyle with display := Display.inline_block }
  | Tag.div => defaultStyle
  | Tag.body => defaultStyle
  | Tag.html => defaultStyle
  | Tag.head => defaultStyle
  | Tag.unknown _ => { defaultStyle with display := Display.none }

/-- The fixed Tailwind colour palette from `try_parse_color_class`
(src/style.rs). -/
def tailwind_colors : List (String × Color) :=
  [("red-500", ⟨937 / 1000, 267 / 1000, 267 / 1000, 1⟩),
   ("red-700", ⟨725 / 1000, 110 / 1000, 110 / 1000, 1⟩),
   ("blue-500", ⟨231 / 1000, 510 / 1000, 965 / 1000, 1⟩),
   ("blue-700", ⟨102 / 1000, 306 / 1000, 827 / 1000, 1⟩),
   ("green-500", ⟨133 / 1000, 773 / 1000, 369 / 1000, 1⟩),
   ("green-700", ⟨82 / 1000, 533 / 1000, 247 / 1000, 1⟩),
   ("gray-100", ⟨953 / 1000, 957 / 1000, 961 / 1000, 1⟩),
   ("gray-200", ⟨898 / 1000, 906 / 1000, 922 / 1000, 1⟩),
   ("gray-300", ⟨831 / 1000, 843 / 1000, 871 / 1000, 1⟩),
   ("gray-500", ⟨424 / 1000, 447 / 1000, 502 / 1000, 1⟩),
   ("gray-700", ⟨216 / 1000, 255 / 1000, 318 / 1000, 1⟩),
   ("gray-900", ⟨67 / 1000, 94 / 1000, 153 / 1000, 1⟩),
   ("white", Color.WHITE),
   ("black", Color.BLACK),
   ("yellow-500", ⟨918 / 1000, 788 / 1000, 153 / 1000, 1⟩)]

/-- `str::rsplitn(2, sep)` when it yields two pieces: the text after the
last separator and the text before it. -/
def rsplit_once (sep : Char) (s : List Char) : Option (List Char × List Char) :=
  let revSuffix := s.reverse.takeWhile (fun c => c ≠ sep)
  match s.reverse.dropWhile (fun c => c ≠ sep) with
  | [] => none
  | _ :: pre => some (pre.reverse, revSuffix.reverse)

/-- `try_parse_spacing_class` from src/style.rs: `{p,m}{,x,y,t,r,b,l}-N`
with one unit = 4 px. -/
def try_parse_spacing_class (s : ComputedStyle) (cls : String) : ComputedStyle :=
  match rsplit_once '-' cls.data with
  | Option.none => s
  | some (pre, valueStr) =>
    match parse_float valueStr with
    | Option.none => s
    | some v0 =>
      let value := v0 * 4
      match String.mk pre with
      | "p" => { s with padding_top := value, padding_right := value,
                        padding_bottom := value, padding_left := value }
      | "px" => { s with padding_left := value, padding_right := value }
      | "py" => { s with padding_top := value, padding_bottom := value }
      | "pt" => { s with padding_top := value }
      | "pr" => { s with padding_right := value }
      | "pb" => { s with padding_bottom := value }
      | "pl" => { s with padding_left := value }
      | "m" => { s with margin_top := value, margin_right := value,
                        margin_bottom := value, margin_left := value }
      | "mx" => { s with margin_left := value, margin_right := value }
      | "my" => { s with margin_top := value, margin_bottom := value }
      | "mt" => { s with margin_top := value }
      | "mr" => { s with margin_right := value }
      | "mb" => { s with margin_bottom := value }
      | "ml" => { s with margin_left := value }
      | _ => s

/-- `try_parse_color_class` from src/style.rs: `text-C` / `bg-C` first, then
`border-C`, against the fixed palette. -/
def try_parse_color_class (s : ComputedStyle) (cls : String) : ComputedStyle :=
  match tailwind_colors.find? (fun nc => cls = "text-" ++ nc.1 ∨ cls = "bg-" ++ nc.1) with
  | some nc =>
    if cls = "text-" ++ nc.1 then { s with color := nc.2 }
    else { s with background_color := nc.2 }
  | Option.none =>
    match tailwind_colors.find? (fun nc => cls = "border-" ++ nc.1) with
    | some nc => { s with border_color := nc.2 }
    | Option.none => s

/-- `str::strip_prefix`. -/
def strip_pre (p : String) (s : String) : Option String :=
  if p.data.isPrefixOf s.data then some (String.mk (s.data.drop p.data.length))
  else none

/-- `try_parse_gap_class` from src/style.rs. -/
def try_parse_gap_class (s : ComputedStyle) (cls : String) : ComputedStyle :=
  match strip_pre "gap-" cls with
  | some rest =>
    match parse_float rest.data with
    | some v => { s with gap := v * 4 }
    | Option.none => s
  | Option.none => s

/-- `try_parse_grid_cols_class` from src/style.rs. -/
def try_parse_grid_cols_class (s : ComputedStyle) (cls : String) : ComputedStyle :=
  match strip_pre "grid-cols-" cls with
  | some rest =>
    match parse_usize rest.data with
    | some n => { s with grid_template_columns := List.replicate n (GridTrack.fr 1) }
    | Option.none => s
  | Option.none => s

/-- `try_parse_width_class` from src/style.rs. -/
def try_parse_width_class (s : ComputedStyle) (cls : String) : ComputedStyle :=
  match strip_pre "w-" cls with
  | some rest =>
    match parse_float rest.data with
    | some v => { s with width := Dim.px (v * 4) }
    | Option.none => s
  | Option.none => s

/-- `try_parse_height_class` from src/style.rs. -/
def try_parse_height_class (s : ComputedStyle) (cls : String) : ComputedStyle :=
  match strip_pre "h-" cls with
  | some rest =>
    match parse_float rest.data with
    | some v => { s with height := Dim.px (v * 4) }
    | Option.none => s
  | Option.none => s

/-- `apply_tailwind_class` from src/style.rs: the fixed utility table, with
the dynamic pattern parsers tried in source order on fallthrough. -/
def apply_tailwind_class (s : ComputedStyle) (cls : String) : ComputedStyle :=
  match cls with
  | "flex" => { s with display := Display.flex }
  | "grid" => { s with display := Display.grid }
  | "block" => { s with display := Display.block }
  | "inline" => { s with display := Display.inline }
  | "inline-block" => { s with display := Display.inline_block }
  | "hidden" => { s with display := Display.none }
  | "flex-row" => { s with flex_direction := FlexDirection.row }
  | "flex-col" => { s with flex_direction := FlexDirection.column }
  | "flex-wrap" => { s with flex_wrap := FlexWrap.wrap }
  | "flex-nowrap" => { s with flex_wrap := FlexWrap.no_wrap }
  | "flex-grow" => { s with flex_grow := 1 }
  | "grow" => { s with flex_grow := 1 }
  | "flex-shrink" => { s with flex_shrink := 1 }
  | "shrink" => { s with flex_shrink := 1 }
  | "flex-1" => { s with flex_grow := 1, flex_shrink := 1 }
  | "justify-start" => { s with justify_content := JustifyContent.start }
  | "justify-end" => { s with justify_content := JustifyContent.end }
  | "justify-center" => { s with justify_content := JustifyContent.center }
  | "justify-between" => { s with justify_content := JustifyContent.space_between }
  | "justify-around" => { s with justify_content := JustifyContent.space_around }
  | "justify-evenly" => { s with justify_content := JustifyContent.space_evenly }
  | "items-start" => { s with align_items := AlignItems.start }
  | "items-end" => { s with align_items := AlignItems.end }
  | "items-center" => { s with align_items := AlignItems.center }
  | "items-stretch" => { s with align_items := AlignItems.stretch }
  | "font-bold" => { s with font_weight := FontWeight.bold }
  | "font-normal" => { s with font_weight := FontWeight.normal }
  | "italic" => { s with font_style := FontStyle.italic }
  | "not-italic" => { s with font_style := FontStyle.normal }
  | "underline" => { s with text_decoration := TextDecoration.underline }
  | "no-underline" => { s with text_decoration := TextDecoration.none }
  | "text-left" => { s with text_align := TextAlign.left }
  | "text-center" => { s with text_align := TextAlign.center }
  | "text-right" => { s with text_align := TextAlign.right }
  | "text-xs" => { s with font_size := 12 }
  | "text-sm" => { s with font_size := 14 }
  | "text-base" => { s with font_size := 16 }
  | "text-lg" => { s with font_size := 18 }
  | "text-xl" => { s with font_size := 20 }
  | "text-2xl" => { s with font_size := 24 }
  | "text-3xl" => { s with font_size := 30 }
  | "text-4xl" => { s with font_size := 36 }
  | "w-full" => { s with width := Dim.percent 100 }
  | "w-auto" => { s with width := Dim.auto }
  | "w-1/2" => { s with width := Dim.percent 50 }
  | "w-1/3" => { s with width := Dim.percent (33333 / 1000) }
  | "w-2/3" => { s with width := Dim.percent (66666 / 1000) }
  | "w-1/4" => { s with width := Dim.percent 25 }
  | "w-3/4" => { s with width := Dim.percent 75 }
  | "break-before" => { s with page_break_before := true }
  | "break-after" => { s with page_break_after := true }
  | "break-inside-avoid" => { s with page_break_inside_avoid := true }
  | "page" => { s with page_break_after := true }
  | "page-break" => { s with page_break_after := true }
  | _ =>
    let s := try_parse_spacing_class s cls
    let s := try_parse_color_class s cls
    let s := try_parse_gap_class s cls
    let s := try_parse_grid_cols_class s cls
    let s := try_parse_width_class s cls
    try_parse_height_class s cls

/-- `parse_px` from src/style.rs: trim, strip trailing `px` suffixes, parse
as a float. -/
def parse_px (s : List Char) : Option ℚ :=
  parse_float ((drop_px_rev (trim_chars s).reverse).reverse)

/-- `parse_dimension` from src/style.rs. -/
def parse_dimension (s : List Char) : Dim :=
  let t := trim_chars s
  if t = "auto".data then Dim.auto
  else if t ≠ [] ∧ t.getLast? = some '%' then
    match parse_float (t.take (t.length - 1)) with
    | some v => Dim.percent v
    | Option.none => Dim.auto
  else
    match parse_px t with
    | some v => Dim.px v
    | Option.none => Dim.auto

/-- `apply_shorthand_spacing` from src/style.rs: 1, 2 or 4 whitespace
separated lengths update the four sides; other counts change nothing. -/
def apply_shorthand_spacing (val : List Char) (t r b l : ℚ) : ℚ × ℚ × ℚ × ℚ :=
  let parts := (split_ws val).filterMap parse_px
  match parts with
  | [v] => (v, v, v, v)
  | [v1, v2] => (v1, v2, v1, v2)
  | [v1, v2, v3, v4] => (v1, v2, v3, v4)
  | _ => (t, r, b, l)

/-- `apply_css_property` from src/style.rs: the closed inline-CSS property
table. -/
def apply_css_property (s : ComputedStyle) (prop val : String) : ComputedStyle :=
  match prop with
  | "display" =>
    { s with display :=
        match val with
        | "flex" => Display.flex
        | "grid" => Display.grid
        | "block" => Display.block
        | "inline" => Display.inline
        | "inline-block" => Display.inline_block
        | "none" => Display.none
        | _ => s.display }
  | "flex-direction" =>
    { s with flex_direction :=
        match val with
        | "row" => FlexDirection.row
        | "column" => FlexDirection.column
        | _ => s.flex_direction }
  | "font-size" =>
    match parse_px val.data with
    | some px => { s with font_size := px }
    | Option.none => s
  | "font-weight" =>
    { s with font_weight :=
        match val with
        | "bold" => FontWeight.bold
        | "700" => FontWeight.bold
        | "800" => FontWeight.bold
        | "900" => FontWeight.bold
        | _ => FontWeight.normal }
  | "font-style" =>
    { s with font_style :=
        match val with
        | "italic" => FontStyle.italic
        | _ => FontStyle.normal }
  | "color" =>
    match Color.from_hex val with
    | some c => { s with color := c }
    | Option.none => s
  | "background-color" =>
    match Color.from_hex val with
    | some c => { s with background_color := c }
    | Option.none => s
  | "background" =>
    match Color.from_hex val with
    | some c => { s with background_color := c }
    | Option.none => s
  | "text-align" =>
    { s with text_align :=
        match val with
        | "center" => TextAlign.center
        | "right" => TextAlign.right
        | _ => TextAlign.left }
  | "width" => { s with width := parse_dimension val.data }
  | "height" => { s with height := parse_dimension val.data }
  | "margin" =>
    let q := apply_shorthand_spacing val.data s.margin_top s.margin_right
      s.margin_bottom s.margin_left
    { s with margin_top := q.1, margin_right := q.2.1,
             margin_bottom := q.2.2.1, margin_left := q.2.2.2 }
  | "margin-top" =>
    match parse_px val.data with
    | some px => { s with margin_top := px }
    | Option.none => s
  | "margin-right" =>
    match parse_px val.data with
    | some px => { s with margin_right := px }
    | Option.none => s
  | "margin-bottom" =>
    match parse_px val.data with
    | some px => { s with margin_bottom := px }
    | Option.none => s
  | "margin-left" =>
    match parse_px val.data with
    | some px => { s with margin_left := px }
    | Option.none => s
  | "padding" =>
    let q := apply_shorthand_spacing val.data s.padding_top s.padding_right
      s.padding_bottom s.padding_left
    { s with padding_top := q.1, padding_right := q.2.1,
             padding_bottom := q.2.2.1, padding_left := q.2.2.2 }
  | "padding-top" =>
    match parse_px val.data with
    | some px => { s with padding_top := px }
    | Option.none => s
  | "padding-right" =>
    match parse_px val.data with
    | some px => { s with padding_right := px }
    | Option.none => s
  | "padding-bottom" =>
    match parse_px val.data with
    | some px => { s with padding_bottom := px }
    | Option.none => s
  | "padding-left" =>
    match parse_px val.data with
    | some px => { s with padding_left := px }
    | Option.none => s
  | "border-width" =>
    match parse_px val.data with
    | some px => { s with border_width := px }
    | Option.none => s
  | "border" =>
    match parse_px val.data with
    | some px => { s with border_width := px }
    | Option.none => s
  | "border-color" =>
    match Color.from_hex val with
    | some c => { s with border_color := c }
    | Option.none => s
  | "line-height" =>
    match parse_float val.data with
    | some v => { s with line_height := v }
    | Option.none =>
      match parse_px val.data with
      | some px => { s with line_height := px / s.font_size }
      | Option.none => s
  | "gap" =>
    match parse_px val.data with
    | some px => { s with gap := px }
    | Option.none => s
  | "break-after" => { s with page_break_after := val = "always" ∨ val = "page" }
  | "break-before" => { s with page_break_before := val = "always" ∨ val = "page" }
  | "page-break-before" => { s with page_break_before := val = "always" ∨ val = "page" }
  | "page-break-after" => { s with page_break_after := val = "always" ∨ val = "page" }
  | "page-break-inside" => { s with page_break_inside_avoid := val = "avoid" }
  | _ => s

/-- `apply_inline_style` from src/style.rs: semicolon-separated `prop:
value` declarations, each trimmed, unknown or colon-less ones skipped. -/
def apply_inline_style (s : ComputedStyle) (style_str : List Char) : ComputedStyle :=
  (split_on ';' style_str).foldl
    (fun st decl =>
      let d := trim_chars decl
      if d = [] then st
      else if d.contains ':' then
        let prop := trim_chars (d.takeWhile (fun c => c ≠ ':'))
        let v := trim_chars ((d.dropWhile (fun c => c ≠ ':')).drop 1)
        apply_css_property st (String.mk prop) (String.mk v)
      else st)
    s

/-- `ElementNode::classes` from src/dom.rs: the whitespace-split tokens of
the `class` attribute. -/
def classes_of (attributes : List (String × String)) : List String :=
  match lookupAttr attributes "class" with
  | some c => (split_ws c.data).map String.mk
  | Option.none => []

/-- `resolve_style` from src/style.rs: tag defaults, then the seven
inherited text fields copied from the parent, then utility classes in
document order, then the inline `style` attribute. -/
def resolve_style (tag : Tag) (attributes : List (String × String))
    (parent : Option ComputedStyle) : ComputedStyle :=
  let style := base_style_for_tag tag
  let style :=
    match parent with
    | some pa =>
      { style with
        font_size := pa.font_size
        font_weight := pa.font_weight
        font_family := pa.font_family
        color := pa.color
        text_align := pa.text_align
        line_height := pa.line_height
        font_style := pa.font_style }
    | Option.none => style
  let style := (classes_of attributes).foldl apply_tailwind_class style
  match lookupAttr attributes "style" with
  | some inline => apply_inline_style style inline.data
  | Option.none => style

/-! ## Styled tree (src/style.rs) and body extraction (src/dom.rs) -/

/-- A DOM node annotated with its computed style (src/style.rs). -/
inductive StyledNode where
  | element (tag : Tag) (style : ComputedStyle) (children : List StyledNode)
      (attrs : List (String × String))
  | text (text : String) (style : ComputedStyle)
deriving Repr

mutual

/-- One node of `build_styled_tree` (src/style.rs): elements resolve their
style and recurse; text nodes take the parent style with the box-model
fields cleared, and whitespace-only text yields nothing. -/
def build_styled_node : DomNode → Option ComputedStyle → Option StyledNode
  | DomNode.element tag attrs children, parent =>
    let style := resolve_style tag attrs parent
    some (StyledNode.element tag style (build_styled_tree children (some style)) attrs)
  | DomNode.text t, parent =>
    if trim_chars t.data ≠ [] then
      let st := parent.getD defaultStyle
      let st := { st with
        border_width := 0
        background_color := ⟨0, 0, 0, 0⟩
        margin_top := 0, margin_right := 0, margin_bottom := 0, margin_left := 0
        padding_top := 0, padding_right := 0, padding_bottom := 0, padding_left := 0 }
      some (StyledNode.text t st)
    else none

/-- `build_styled_tree` from src/style.rs: resolve styles top-down. -/
def build_styled_tree : List DomNode → Option ComputedStyle → List StyledNode
  | [], _ => []
  | n :: rest, parent =>
    match build_styled_node n parent with
    | some sn => sn :: build_styled_tree rest parent
    | Option.none => build_styled_tree rest parent

end

mutual

/-- The per-node test of the `body_children` loop (src/dom.rs): a `body`
element returns its children; an `html` element returns the recursive
`body_children` of its children when non-empty. -/
def body_children_find : DomNode → Option (List DomNode)
  | DomNode.text _ => none
  | DomNode.element tag _ ch =>
    if tag = Tag.body then some ch
    else if tag = Tag.html then
      let inner := (body_children_go ch).getD ch
      if inner.isEmpty then none else some inner
    else none

/-- The scanning loop of `body_children` (src/dom.rs), with the fallback of
the recursive `body_children(e.children)` call inlined as `getD ch`. -/
def body_children_go : List DomNode → Option (List DomNode)
  | [] => none
  | n :: rest =>
    match body_children_find n with
    | some r => some r
    | Option.none => body_children_go rest

end

/-- `body_children` from src/dom.rs: the children of the first `body`
element (recursing through `html`), else the whole forest. -/
def body_children (nodes : List DomNode) : List DomNode :=
  (body_children_go nodes).getD nodes

/-! ## Font metrics and text wrapping (src/fonts.rs) -/

/-- `FontManager::measure_text_width` from src/fonts.rs, in the
no-glyph-bytes branch taken by `FontManager::default()` (the pipeline's
font manager registers only the synthetic Helvetica faces, whose `bytes`
are empty): character count × font size × 0.55 (bold) or 0.5. -/
def measure_text_width (text : List Char) (font_size : ℚ) (bold : Bool) : ℚ :=
  (text.length : ℚ) * font_size * (if bold then 55 / 100 else 50 / 100)

/-- `FontManager::line_height_px` from src/fonts.rs. -/
def line_height_px (font_size factor : ℚ) : ℚ := font_size * factor

/-- The greedy word loop of `wrap_text` (src/fonts.rs). `measure` stands
for the partially applied `fonts.measure_text_width(_, font_size, bold,
italic, family)` of the source; the wrapping logic never depends on its
shape. -/
def wrap_loop (measure : List Char → ℚ) (max_width : ℚ) :
    List (List Char) → List (List Char) → List Char → List (List Char)
  | [], lines, current => if current = [] then lines else lines ++ [current]
  | w :: ws, lines, current =>
    let candidate := if current = [] then w else current ++ ' ' :: w
    if measure candidate > max_width ∧ current ≠ [] then
      wrap_loop measure max_width ws (lines ++ [current]) w
    else
      wrap_loop measure max_width ws lines candidate

/-- `wrap_text` from src/fonts.rs: early-out for non-positive width or
empty text, hard-split on newlines, greedy-wrap each paragraph's
whitespace-separated words, and never return an empty list. -/
def wrap_text (measure : List Char → ℚ) (text : List Char) (max_width : ℚ) :
    List (List Char) :=
  if max_width ≤ 0 ∨ text = [] then [text]
  else
    let lines := (split_on '\n' text).foldl
      (fun lines para =>
        let words := split_ws para
        if words = [] then lines ++ [[]]
        else wrap_loop measure max_width words lines [])
      []
    if lines = [] then [[]] else lines

/-! ## Layout-engine width estimation (src/layout.rs) -/

def is_element : StyledNode → Bool
  | StyledNode.element _ _ _ _ => true
  | StyledNode.text _ _ => false

/-- The element's resolved width in `build_element_node` (src/layout.rs):
`my_width` from the style's width dimension against the parent width. -/
def resolved_width (style : ComputedStyle) (parent_width : ℚ) : ℚ :=
  match style.width with
  | Dim.px w => w
  | Dim.percent pc => parent_width * pc / 100
  | Dim.auto => parent_width

/-- `inner_width` in `build_element_node` (src/layout.rs): resolved width
minus horizontal padding. -/
def inner_width (style : ComputedStyle) (parent_width : ℚ) : ℚ :=
  resolved_width style parent_width - style.padding_left - style.padding_right

/-- `elem_child_count` in `build_element_node` (src/layout.rs): the number
of element children, at least 1. -/
def elem_child_count (children : List StyledNode) : ℕ :=
  max (children.countP (fun c => is_element c)) 1

/-- `child_build_width` in `build_element_node` (src/layout.rs, lines
225-241): the width handed to each child for pre-solver text wrapping.
For flex-row containers and `tr` it is the per-column estimate clamped
below at 1.0; otherwise the inner width. -/
def child_build_width (tag : Tag) (style : ComputedStyle)
    (children : List StyledNode) (parent_width : ℚ) : ℚ :=
  let iw := inner_width style parent_width
  let is_flex_row := style.display = Display.flex ∧
    style.flex_direction = FlexDirection.row
  if is_flex_row ∨ tag = Tag.tr then
    let n := elem_child_count children
    let gap_total := style.gap * ((n - 1 : ℕ) : ℚ)
    fmax ((iw - gap_total) / (n : ℚ)) 1
  else iw

/-- Modelled from the spec: the per-child width formula as the spec states
it — `(inner-width − gap × (N−1)) / N` with no clamping — defined for
comparison against `child_build_width`. -/
def spec_child_width (style : ComputedStyle) (children : List StyledNode)
    (parent_width : ℚ) : ℚ :=
  let iw := inner_width style parent_width
  let n := elem_child_count children
  (iw - style.gap * ((n - 1 : ℕ) : ℚ)) / (n : ℚ)

/-! ## Positioned boxes (src/layout.rs) and the layout config
(src/layout_config.rs) -/

/-- `BoxContent` from src/layout.rs. -/
inductive BoxContent where
  | none
  | text (text : String) (lines : List String)
  | image (src : String)
  | list_item (marker : String)
deriving DecidableEq, Repr

/-- `PositionedBox` from src/layout.rs: a box in document coordinates. -/
inductive PositionedBox where
  | mk (x y width height : ℚ) (style : ComputedStyle) (content : BoxContent)
      (children : List PositionedBox)
      (page_break_before page_break_after page_break_inside_avoid : Bool)
deriving Repr

def PositionedBox.x : PositionedBox → ℚ
  | PositionedBox.mk x _ _ _ _ _ _ _ _ _ => x

def PositionedBox.y : PositionedBox → ℚ
  | PositionedBox.mk _ y _ _ _ _ _ _ _ _ => y

def PositionedBox.width : PositionedBox → ℚ
  | PositionedBox.mk _ _ w _ _ _ _ _ _ _ => w

def PositionedBox.height : PositionedBox → ℚ
  | PositionedBox.mk _ _ _ h _ _ _ _ _ _ => h

def PositionedBox.style : PositionedBox → ComputedStyle
  | PositionedBox.mk _ _ _ _ st _ _ _ _ _ => st

def PositionedBox.content : PositionedBox → BoxContent
  | PositionedBox.mk _ _ _ _ _ c _ _ _ _ => c

def PositionedBox.children : PositionedBox → List PositionedBox
  | PositionedBox.mk _ _ _ _ _ _ ch _ _ _ => ch

def PositionedBox.page_break_before : PositionedBox → Bool
  | PositionedBox.mk _ _ _ _ _ _ _ b _ _ => b

def PositionedBox.page_break_after : PositionedBox → Bool
  | PositionedBox.mk _ _ _ _ _ _ _ _ b _ => b

def PositionedBox.page_break_inside_avoid : PositionedBox → Bool
  | PositionedBox.mk _ _ _ _ _ _ _ _ _ b => b

/-- `TextLine` from src/layout_config.rs. -/
structure TextLine where
  text : String
  x_offset : ℚ
  y_offset : ℚ
deriving DecidableEq, Repr

/-- `TextContent` from src/layout_config.rs; the `[f32; 4]` colour array is
a 4-tuple. -/
structure TextContent where
  lines : List TextLine
  font_family : String
  font_size : ℚ
  bold : Bool
  italic : Bool
  color : ℚ × ℚ × ℚ × ℚ
  line_height : ℚ
  text_align : String
  underline : Bool
  list_marker : Option String
deriving DecidableEq, Repr

/-- `BorderStyle` from src/layout_config.rs. -/
structure BorderStyle where
  width : ℚ
  color : ℚ × ℚ × ℚ × ℚ
deriving DecidableEq, Repr

/-- `ImageContent` from src/layout_config.rs. -/
structure ImageContent where
  src : String
  width : ℚ
  height : ℚ
deriving DecidableEq, Repr

/-- `LayoutBox` from src/layout_config.rs: a page-absolute rectangle with
optional content and nested children. -/
inductive LayoutBox where
  | mk (x y width height : ℚ)
      (background_color : Option (ℚ × ℚ × ℚ × ℚ))
      (border : Option BorderStyle)
      (text : Option TextContent)
      (image : Option ImageContent)
      (children : List LayoutBox)
deriving Repr

def LayoutBox.x : LayoutBox → ℚ
  | LayoutBox.mk x _ _ _ _ _ _ _ _ => x

def LayoutBox.y : LayoutBox → ℚ
  | LayoutBox.mk _ y _ _ _ _ _ _ _ => y

def LayoutBox.width : LayoutBox → ℚ
  | LayoutBox.mk _ _ w _ _ _ _ _ _ => w

def LayoutBox.height : LayoutBox → ℚ
  | LayoutBox.mk _ _ _ h _ _ _ _ _ => h

def LayoutBox.children : LayoutBox → List LayoutBox
  | LayoutBox.mk _ _ _ _ _ _ _ _ ch => ch

/-- `PageLayout` from src/layout_config.rs. -/
structure PageLayout where
  page_index : ℕ
  boxes : List LayoutBox
deriving Repr

/-- `LayoutConfig` from src/layout_config.rs. -/
structure LayoutConfig where
  title : String
  page_width_pt : ℚ
  page_height_pt : ℚ
  pages : List PageLayout
deriving Repr

/-! ## Paginator (src/pagination.rs) -/

mutual

/-- One box of `flatten_for_pagination` (src/pagination.rs): a
pure-container box (content none, children non-empty) taller than the
content height is replaced by its flattened children. -/
def flatten_one (content_height : ℚ) : PositionedBox → List PositionedBox
  | PositionedBox.mk x y w h st c ch b1 b2 b3 =>
    if h > content_height ∧ c = BoxContent.none ∧ ¬ ch.isEmpty then
      flatten_for_pagination content_height ch
    else [PositionedBox.mk x y w h st c ch b1 b2 b3]

/-- `flatten_for_pagination` from src/pagination.rs. -/
def flatten_for_pagination (content_height : ℚ) : List PositionedBox → List PositionedBox
  | [] => []
  | b :: bs => flatten_one content_height b ++ flatten_for_pagination content_height bs

end

mutual

/-- `build_layout_box` from src/pagination.rs: convert a `PositionedBox` to
a page-absolute `LayoutBox`; children propagate via
`child_abs_y = abs_y + (child.y − parent.y)` and keep their own x. The
font manager appears only through `line_height_px`, which is embedded
directly. -/
def build_layout_box : PositionedBox → ℚ → ℚ → LayoutBox
  | PositionedBox.mk _ y w h style content children _ _ _, absX, absY =>
    let background :=
      if ¬ style.background_color.is_transparent then
        some (style.background_color.r, style.background_color.g,
          style.background_color.b, style.background_color.a)
      else none
    let border :=
      if style.border_width > 1 / 2 then
        some (BorderStyle.mk style.border_width
          (style.border_color.r, style.border_color.g,
           style.border_color.b, style.border_color.a))
      else none
    let lh := line_height_px style.font_size style.line_height
    let text :=
      match content with
      | BoxContent.text _ lines =>
        some { lines := lines.enum.map
                  (fun il => TextLine.mk il.2 0 ((il.1 : ℚ) * lh))
               font_family := style.font_family
               font_size := style.font_size
               bold := style.font_weight = FontWeight.bold
               italic := style.font_style = FontStyle.italic
               color := (style.color.r, style.color.g, style.color.b, style.color.a)
               line_height := lh
               text_align :=
                 match style.text_align with
                 | TextAlign.left => "left"
                 | TextAlign.center => "center"
                 | TextAlign.right => "right"
               underline := style.text_decoration = TextDecoration.underline
               list_marker := none }
      | BoxContent.list_item marker =>
        some { lines := []
               font_family := style.font_family
               font_size := style.font_size
               bold := style.font_weight = FontWeight.bold
               italic := false
               color := (style.color.r, style.color.g, style.color.b, style.color.a)
               line_height := lh
               text_align := "left"
               underline := false
               list_marker := some marker }
      | _ => none
    let image :=
      match content with
      | BoxContent.image src => some (ImageContent.mk src w h)
      | _ => none
    let childBoxes := build_layout_box_list children y absY
    LayoutBox.mk absX absY w h background border text image childBoxes

/-- The child recursion of `build_layout_box`: each child keeps its own x
and is placed at `abs_y + (child.y − parent_y)`. -/
def build_layout_box_list : List PositionedBox → ℚ → ℚ → List LayoutBox
  | [], _, _ => []
  | c :: cs, parent_y, absY =>
    build_layout_box c c.x (absY + (c.y - parent_y)) ::
      build_layout_box_list cs parent_y absY

end

/-- `positioned_to_layout_box` from src/pagination.rs. -/
def positioned_to_layout_box (pbox : PositionedBox) (page_margin y_on_page : ℚ) : LayoutBox :=
  build_layout_box pbox pbox.x (page_margin + y_on_page)

/-- The mutable pagination state of `paginate` (src/pagination.rs):
the finished pages, the growing current page and `page_start_doc_y`. -/
structure PagState where
  pages : List PageLayout
  current : PageLayout
  page_start : ℚ

/-- Flush the current page and start a fresh one whose index is the number
of finished pages, setting `page_start_doc_y` to `new_start`. -/
def flush_page (st : PagState) (new_start : ℚ) : PagState :=
  let newPages := st.pages ++ [st.current]
  PagState.mk newPages (PageLayout.mk newPages.length []) new_start

/-- Append a layout box to the current page. -/
def emit_box (st : PagState) (lb : LayoutBox) : PagState :=
  { st with current := PageLayout.mk st.current.page_index (st.current.boxes ++ [lb]) }

/-- `is_table_like` from src/pagination.rs. -/
def is_table_like (pbox : PositionedBox) : Bool :=
  decide (pbox.style.display = Display.grid) && !pbox.children.isEmpty

/-- `split_table_box` from src/pagination.rs: emit each child row, flushing
the page first when a row would overflow a non-empty page. -/
def split_table_box (content_height page_margin : ℚ) (pbox : PositionedBox)
    (st : PagState) : PagState :=
  pbox.children.foldl
    (fun st child =>
      let y_on_page := fmax (child.y - st.page_start) 0
      let st :=
        if y_on_page + child.height > content_height ∧ ¬ st.current.boxes.isEmpty then
          flush_page st child.y
        else st
      let y := fmax (child.y - st.page_start) 0
      emit_box st (positioned_to_layout_box child page_margin y))
    st

/-- One iteration of the top-level loop of `paginate` (src/pagination.rs). -/
def paginate_step (content_height page_margin : ℚ) (st : PagState)
    (pbox : PositionedBox) : PagState :=
  let st :=
    if pbox.page_break_before ∧ ¬ st.current.boxes.isEmpty then flush_page st pbox.y
    else st
  let y_on_page := fmax (pbox.y - st.page_start) 0
  let box_bottom := y_on_page + pbox.height
  if box_bottom > content_height ∧ ¬ st.current.boxes.isEmpty then
    if is_table_like pbox ∧ ¬ pbox.page_break_inside_avoid then
      split_table_box content_height page_margin pbox st
    else
      let st := flush_page st pbox.y
      let y2 := fmax (pbox.y - st.page_start) 0
      let st := emit_box st (positioned_to_layout_box pbox page_margin y2)
      if pbox.page_break_after then flush_page st (pbox.y + pbox.height) else st
  else
    let y2 := fmax (pbox.y - st.page_start) 0
    let st := emit_box st (positioned_to_layout_box pbox page_margin y2)
    if pbox.page_break_after then flush_page st (pbox.y + pbox.height) else st

/-- `paginate` from src/pagination.rs: flatten oversized wrappers, run the
top-level loop, push a trailing non-empty page, and guarantee at least one
page. The title is the constant the source writes. -/
def paginate (boxes : List PositionedBox) (page_width page_height page_margin : ℚ) :
    LayoutConfig :=
  let content_height := page_height - 2 * page_margin
  let flat := flatten_for_pagination content_height boxes
  let st := flat.foldl (paginate_step content_height page_margin)
    (PagState.mk [] (PageLayout.mk 0 []) 0)
  let pages := if ¬ st.current.boxes.isEmpty then st.pages ++ [st.current] else st.pages
  let pages := if pages.isEmpty then [PageLayout.mk 0 []] else pages
  LayoutConfig.mk "rpdf output" page_width page_height pages

/-! ## Pipeline orchestrator (src/pipeline.rs) -/

/-- `PageOrientation` from src/pipeline.rs. -/
inductive PageOrientation where
  | portrait | landscape
deriving DecidableEq, Repr

/-- `PipelineConfig` from src/pipeline.rs. -/
structure PipelineConfig where
  title : String
  page_width : ℚ
  page_height : ℚ
  page_margin : ℚ
  orientation : PageOrientation
deriving Repr

/-- `PipelineConfig::default` from src/pipeline.rs (A4 portrait, margin 40,
title "rpdf output"). -/
def PipelineConfig.default : PipelineConfig :=
  PipelineConfig.mk "rpdf output" (59528 / 100) (84189 / 100) 40 PageOrientation.portrait

/-- `PipelineConfig::effective_width` from src/pipeline.rs. -/
def PipelineConfig.effective_width (c : PipelineConfig) : ℚ :=
  match c.orientation with
  | PageOrientation.portrait => c.page_width
  | PageOrientation.landscape => c.page_height

/-- `PipelineConfig::effective_height` from src/pipeline.rs. -/
def PipelineConfig.effective_height (c : PipelineConfig) : ℚ :=
  match c.orientation with
  | PageOrientation.portrait => c.page_height
  | PageOrientation.landscape => c.page_width

/-- `compute_layout_config` from src/pipeline.rs. The flex/grid solver
stage (`compute_layout`, built on the external Taffy crate) is a parameter
`solver` taking the styled forest, the effective page width and the page
margin; every other stage is the embedding above. `none` models the
divergence of the parser (proved possible below); on every terminating
parse the result is `some`. -/
def compute_layout_config
    (solver : List StyledNode → ℚ → ℚ → List PositionedBox)
    (html : String) (config : PipelineConfig) : Option LayoutConfig :=
  match parse_html html with
  | some dom =>
    let dom_nodes := body_children dom
    let styled := build_styled_tree dom_nodes none
    let boxes := solver styled config.effective_width config.page_margin
    some (paginate boxes config.effective_width config.effective_height config.page_margin)
  | Option.none => none

/-- `generate_pdf` from src/pipeline.rs. The external PDF writer
(`render_pdf`, out of the specified core) is a parameter `renderer`; the
function overwrites the paginated config's title with the configured title
before rendering, exactly as the source does. -/
def generate_pdf
    (solver : List StyledNode → ℚ → ℚ → List PositionedBox)
    (renderer : LayoutConfig → Except String (List ℕ))
    (html : String) (config : PipelineConfig) :
    Option (Except String (List ℕ × LayoutConfig)) :=
  match parse_html html with
  | some dom =>
    let dom_nodes := body_children dom
    let styled := build_styled_tree dom_nodes none
    let boxes := solver styled config.effective_width config.page_margin
    let layout_config := paginate boxes config.effective_width
      config.effective_height config.page_margin
    let layout_config := { layout_config with title := config.title }
    match renderer layout_config with
    | Except.ok bytes => some (Except.ok (bytes, layout_config))
    | Except.error e => some (Except.error e)
  | Option.none => none

/-! ## Predicates and sample inputs used by the statements below -/

mutual

/-- A layout box, and recursively all its children, lie within the page
horizontally and start at or below the page top: `0 ≤ x`, `x + width ≤ W`
and `0 ≤ y`. -/
def layout_box_in_bounds (pw : ℚ) : LayoutBox → Bool
  | LayoutBox.mk x y w _ _ _ _ _ ch =>
    decide (0 ≤ x) && decide (x + w ≤ pw) && decide (0 ≤ y) &&
      layout_boxes_in_bounds pw ch

/-- `layout_box_in_bounds` over a list. -/
def layout_boxes_in_bounds (pw : ℚ) : List LayoutBox → Bool
  | [] => true
  | b :: bs => layout_box_in_bounds pw b && layout_boxes_in_bounds pw bs

end

/-- Every layout box on every page of a config satisfies
`layout_box_in_bounds`. -/
def config_boxes_in_bounds (pw : ℚ) (cfg : LayoutConfig) : Bool :=
  cfg.pages.all (fun p => layout_boxes_in_bounds pw p.boxes)

mutual

/-- A positioned box, and recursively all its children, lie within the page
horizontally: `0 ≤ x` and `x + width ≤ W`. -/
def pbox_x_in_bounds (pw : ℚ) : PositionedBox → Bool
  | PositionedBox.mk x _ w _ _ _ ch _ _ _ =>
    decide (0 ≤ x) && decide (x + w ≤ pw) && pboxes_x_in_bounds pw ch

/-- `pbox_x_in_bounds` over a list. -/
def pboxes_x_in_bounds (pw : ℚ) : List PositionedBox → Bool
  | [] => true
  | b :: bs => pbox_x_in_bounds pw b && pboxes_x_in_bounds pw bs

end

mutual

/-- Every child of a positioned box starts at or below its parent's top
edge, recursively (part of the Positioned-Box containment invariant the
layout stage guarantees). -/
def pbox_children_below : PositionedBox → Bool
  | PositionedBox.mk _ y _ _ _ _ ch _ _ _ => pboxes_below y ch

/-- Each box in the list starts at or below `parent_y` and satisfies
`pbox_children_below` itself. -/
def pboxes_below (parent_y : ℚ) : List PositionedBox → Bool
  | [] => true
  | b :: bs =>
    (decide (parent_y ≤ b.y) && pbox_children_below b) && pboxes_below parent_y bs

end

mutual

/-- A layout box (or one of its descendants) extends below
`page_height + tolerance`. -/
def box_beyond_bottom (ph tol : ℚ) : LayoutBox → Bool
  | LayoutBox.mk _ y _ h _ _ _ _ ch =>
    decide (y + h > ph + tol) || boxes_beyond_bottom ph tol ch

/-- `box_beyond_bottom` over a list. -/
def boxes_beyond_bottom (ph tol : ℚ) : List LayoutBox → Bool
  | [] => false
  | b :: bs => box_beyond_bottom ph tol b || boxes_beyond_bottom ph tol bs

end

/-- Some layout box on some page of a config extends below
`page_height + tolerance`. -/
def config_has_box_beyond_bottom (ph tol : ℚ) (cfg : LayoutConfig) : Bool :=
  cfg.pages.any (fun p => boxes_beyond_bottom ph tol p.boxes)

/-- The seven text-group fields `resolve_style` copies from the parent. -/
def text_group_inherited (r pa : ComputedStyle) : Prop :=
  r.font_size = pa.font_size ∧ r.font_weight = pa.font_weight ∧
  r.font_family = pa.font_family ∧ r.color = pa.color ∧
  r.text_align = pa.text_align ∧ r.line_height = pa.line_height ∧
  r.font_style = pa.font_style

/-- All Computed-Style fields outside the seven inherited text-group fields
and outside `text_decoration` agree between two records. -/
def box_fields_equal (r b : ComputedStyle) : Prop :=
  r.display = b.display ∧ r.flex_direction = b.flex_direction ∧
  r.flex_wrap = b.flex_wrap ∧ r.flex_grow = b.flex_grow ∧
  r.flex_shrink = b.flex_shrink ∧ r.justify_content = b.justify_content ∧
  r.align_items = b.align_items ∧ r.gap = b.gap ∧
  r.grid_template_columns = b.grid_template_columns ∧
  r.grid_template_rows = b.grid_template_rows ∧
  r.width = b.width ∧ r.height = b.height ∧
  r.min_width = b.min_width ∧ r.max_width = b.max_width ∧
  r.margin_top = b.margin_top ∧ r.margin_right = b.margin_right ∧
  r.margin_bottom = b.margin_bottom ∧ r.margin_left = b.margin_left ∧
  r.padding_top = b.padding_top ∧ r.padding_right = b.padding_right ∧
  r.padding_bottom = b.padding_bottom ∧ r.padding_left = b.padding_left ∧
  r.border_width = b.border_width ∧ r.border_color = b.border_color ∧
  r.background_color = b.background_color ∧
  r.page_break_before = b.page_break_before ∧
  r.page_break_after = b.page_break_after ∧
  r.page_break_inside_avoid = b.page_break_inside_avoid

/-- The title of an optional layout config. -/
def opt_title (o : Option LayoutConfig) : Option String :=
  o.map LayoutConfig.title

/-- The title of the layout config returned by a successful
`generate_pdf`. -/
def gen_title (o : Option (Except String (List ℕ × LayoutConfig))) : Option String :=
  match o with
  | some (Except.ok pr) => some pr.2.title
  | _ => none

/-- A pure-content box 2000 pt tall: a counterexample input for the
page-bounds invariant. -/
def tall_box : PositionedBox :=
  PositionedBox.mk 0 0 100 2000 defaultStyle BoxContent.none [] false false false

/-- A single table cell child, as styled by the tag defaults. -/
def td_child : StyledNode :=
  StyledNode.element Tag.td (base_style_for_tag Tag.td) [] []

/-- A concrete measuring function: the default font manager's heuristic at
font size 16, regular weight. -/
def measure16 : List Char → ℚ := fun s => measure_text_width s 16 false

/-- A trivial concrete solver (models a layout stage returning no boxes). -/
def solver0 : List StyledNode → ℚ → ℚ → List PositionedBox := fun _ _ _ => []

/-- A trivial concrete renderer that always succeeds. -/
def renderer0 : LayoutConfig → Except String (List ℕ) := fun _ => Except.ok []

/-- A pipeline config whose title differs from the constant the paginator
writes. -/
def config_titled : PipelineConfig :=
  { PipelineConfig.default with title := "My Report" }

/-- A parent style carrying an underline text decoration. -/
def parent_underlined : ComputedStyle :=
  { defaultStyle with text_decoration := TextDecoration.underline }

/-- A well-formed paginator input forest: every box lies within the page
horizontally (recursively) and every child starts at or below its parent's
top edge (recursively). The layout stage guarantees both for the forests
it hands to the paginator. -/
def pboxes_wf (pw : ℚ) (bs : List PositionedBox) : Bool :=
  bs.all (fun b => pbox_x_in_bounds pw b && pbox_children_below b)

/-- The pagination-loop invariant used below: every finished page and the
current page hold only in-bounds layout boxes. -/
def pag_inv (pw : ℚ) (st : PagState) : Prop :=
  (∀ p ∈ st.pages, layout_boxes_in_bounds pw p.boxes = true) ∧
  layout_boxes_in_bounds pw st.current.boxes = true

/-- The nonemptiness invariant of the pagination loop: every finished page
holds at least one box. -/
def pag_ne (st : PagState) : Prop :=
  ∀ p ∈ st.pages, p.boxes ≠ []

/-- A concrete in-bounds positioned box. -/
def small_box : PositionedBox :=
  PositionedBox.mk 10 5 100 50 defaultStyle (BoxContent.text "hi" ["hi"]) []
    false false false

/-! ## Theorems -/

/-- `parse_tag_name` scans exactly the maximal name-character run,
verbatim. -/
theorem parse_tag_name_eq (l : List Char) :
    parse_tag_name l = (l.takeWhile is_name_char, l.dropWhile is_name_char) := by
  induction l with
  | nil => rfl
  | cons c cs ih =>
    by_cases h : is_name_char c
    · simp [parse_tag_name, h, List.takeWhile_cons, List.dropWhile_cons, ih]
    · simp [parse_tag_name, h, List.takeWhile_cons, List.dropWhile_cons]

/-- C3 (corrected): the attribute name returned by `parse_attribute` is the
verbatim maximal name-character run of the input: no lowercasing (or any
other transformation) is applied to stored attribute names. -/
theorem C3_attr_names_verbatim (rem : List Char) :
    (parse_attribute rem).1 = rem.takeWhile is_name_char := by
  simp only [parse_attribute, parse_tag_name_eq]
  split <;> rfl

/-- C3 counterexample: parsing `<div CLASS="x"></div>` stores the attribute
name `CLASS`, which is not lowercased. -/
theorem C3_counterexample :
    (parse_html "<div CLASS=\"x\"></div>").isSome = true ∧
    all_attr_names ((parse_html "<div CLASS=\"x\"></div>").getD []) = ["CLASS"] ∧
    ("CLASS".data.all fun c => c.toLower = c) = false := by
  refine ⟨by decide, by decide, by decide⟩

/-- C2 (corrected): for an element whose attributes carry no `class` and no
`style`, `resolve_style` copies exactly the seven text-group fields
font-size, font-weight, font-family, color, text-align, line-height and
font-style from the parent; `text_decoration` is NOT inherited and, like
every remaining field, keeps the tag-default value. -/
theorem C2_inheritance (tag : Tag) (attrs : List (String × String))
    (pa : ComputedStyle)
    (hc : lookupAttr attrs "class" = none)
    (hs : lookupAttr attrs "style" = none) :
    text_group_inherited (resolve_style tag attrs (some pa)) pa ∧
    (resolve_style tag attrs (some pa)).text_decoration =
      (base_style_for_tag tag).text_decoration ∧
    box_fields_equal (resolve_style tag attrs (some pa)) (base_style_for_tag tag) := by
  unfold resolve_style classes_of
  rw [hc, hs]
  simp [text_group_inherited, box_fields_equal]

/-- C2 witness: the inheritance theorem applied to a bare `span` under a
concrete parent. -/
theorem C2_witness :
    text_group_inherited (resolve_style Tag.span [] (some parent_underlined))
      parent_underlined ∧
    (resolve_style Tag.span [] (some parent_underlined)).text_decoration =
      (base_style_for_tag Tag.span).text_decoration ∧
    box_fields_equal (resolve_style Tag.span [] (some parent_underlined))
      (base_style_for_tag Tag.span) :=
  C2_inheritance Tag.span [] parent_underlined rfl rfl

/-- C2 counterexample: a bare `div` under a parent with underline text
decoration resolves to no decoration, so `text-decoration` is not
inherited even though nothing on the element sets it. -/
theorem C2_counterexample :
    (resolve_style Tag.div [] (some parent_underlined)).text_decoration =
      TextDecoration.none ∧
    parent_underlined.text_decoration = TextDecoration.underline ∧
    lookupAttr ([] : List (String × String)) "class" = none ∧
    lookupAttr ([] : List (String × String)) "style" = none := by
  refine ⟨by decide, by decide, rfl, rfl⟩

/-- C4 (corrected): for a flex-row container or a `tr`, the width handed to
each child for pre-solver wrapping is the spec's formula
`(inner-width − gap × (N−1)) / N` clamped below at 1. -/
theorem C4_child_width_clamped (tag : Tag) (style : ComputedStyle)
    (children : List StyledNode) (pw : ℚ)
    (h : (style.display = Display.flex ∧
          style.flex_direction = FlexDirection.row) ∨ tag = Tag.tr) :
    child_build_width tag style children pw =
      fmax (spec_child_width style children pw) 1 := by
  simp only [child_build_width, spec_child_width]
  rw [if_pos h]

/-- C4 witness: two equal table cells in a 200 pt row get 100 pt each. -/
theorem C4_witness :
    child_build_width Tag.tr (base_style_for_tag Tag.tr) [td_child, td_child] 200 =
      fmax (spec_child_width (base_style_for_tag Tag.tr) [td_child, td_child] 200) 1 :=
  C4_child_width_clamped Tag.tr (base_style_for_tag Tag.tr) [td_child, td_child] 200
    (Or.inr rfl)

/-- C4 counterexample: a `tr` of resolved width 0 hands its single cell a
width of 1, not the `(inner-width − gap × (N−1)) / N = 0` the claim
states. -/
theorem C4_counterexample :
    child_build_width Tag.tr (base_style_for_tag Tag.tr) [td_child] 0 = 1 ∧
    spec_child_width (base_style_for_tag Tag.tr) [td_child] 0 = 0 ∧
    child_build_width Tag.tr (base_style_for_tag Tag.tr) [td_child] 0 ≠
      spec_child_width (base_style_for_tag Tag.tr) [td_child] 0 := by
  have h1 : child_build_width Tag.tr (base_style_for_tag Tag.tr) [td_child] 0 = 1 := by
    norm_num [child_build_width, inner_width, resolved_width, elem_child_count,
      base_style_for_tag, defaultStyle, is_element, fmax, td_child]
  have h2 : spec_child_width (base_style_for_tag Tag.tr) [td_child] 0 = 0 := by
    norm_num [spec_child_width, inner_width, resolved_width, elem_child_count,
      base_style_for_tag, defaultStyle, is_element, td_child]
  refine ⟨h1, h2, ?_⟩
  rw [h1, h2]
  norm_num

/-- C6 (confirmed): `wrap_text` never returns an empty list; empty input
yields `[""]` and a non-positive width yields `[text]`. -/
theorem C6_wrap_nonempty (measure : List Char → ℚ) (text : List Char)
    (max_width : ℚ) :
    wrap_text measure text max_width ≠ [] ∧
    (text = [] → wrap_text measure text max_width = [[]]) ∧
    (max_width ≤ 0 → wrap_text measure text max_width = [text]) := by
  by_cases h : max_width ≤ 0 ∨ text = []
  · have e : wrap_text measure text max_width = [text] := by
      simp only [wrap_text, if_pos h]
    refine ⟨?_, ?_, fun _ => e⟩
    · rw [e]
      simp
    · intro ht
      rw [e, ht]
  · simp only [wrap_text, if_neg h]
    rw [not_or] at h
    refine ⟨?_, fun ht => absurd ht h.2, fun hm => absurd hm h.1⟩
    split
    · simp
    · next hne => exact hne

/-- C6 witness: the theorem applied at a concrete measure and inputs. -/
theorem C6_witness :
    wrap_text measure16 [] 5 = [[]] ∧ wrap_text measure16 "x y".data 0 = ["x y".data] :=
  ⟨(C6_wrap_nonempty measure16 [] 5).2.1 rfl,
   (C6_wrap_nonempty measure16 "x y".data 0).2.2 (by norm_num)⟩

/-- C9 (confirmed): the compute-layout-only entry point is a pure function
of its inputs in this embedding — two invocations on identical HTML and
identical configuration produce identical layout configs (for any solver
stage). -/
theorem C9_determinism (solver : List StyledNode → ℚ → ℚ → List PositionedBox)
    (html1 html2 : String) (cfg1 cfg2 : PipelineConfig)
    (hh : html1 = html2) (hc : cfg1 = cfg2) :
    compute_layout_config solver html1 cfg1 =
      compute_layout_config solver html2 cfg2 := by
  subst hh
  subst hc
  rfl

/-- C9 witness: two invocations on a concrete input agree. -/
theorem C9_witness :
    compute_layout_config solver0 "" PipelineConfig.default =
      compute_layout_config solver0 "" PipelineConfig.default :=
  C9_determinism solver0 "" "" PipelineConfig.default PipelineConfig.default rfl rfl

/-- C10 (confirmed): the compute-layout-only entry point always returns a
layout config titled with the constant `"rpdf output"` the paginator
writes, ignoring the configured title; only `generate_pdf` overwrites the
title with the configured one. -/
theorem C10_title :
    (∀ (solver : List StyledNode → ℚ → ℚ → List PositionedBox) (html : String)
      (cfg : PipelineConfig) (lc : LayoutConfig),
      compute_layout_config solver html cfg = some lc → lc.title = "rpdf output") ∧
    (∀ (solver : List StyledNode → ℚ → ℚ → List PositionedBox)
      (renderer : LayoutConfig → Except String (List ℕ)) (html : String)
      (cfg : PipelineConfig) (bytes : List ℕ) (lc : LayoutConfig),
      generate_pdf solver renderer html cfg = some (Except.ok (bytes, lc)) →
      lc.title = cfg.title) := by
  constructor
  · intro solver html cfg lc h
    unfold compute_layout_config at h
    split at h
    · have h2 := Option.some.inj h
      rw [← h2]
      rfl
    · exact absurd h (by simp)
  · intro solver renderer html cfg bytes lc h
    unfold generate_pdf at h
    split at h
    · simp only [] at h
      split at h
      · have h2 := Option.some.inj h
        have h3 := Except.ok.inj h2
        have h4 := congrArg Prod.snd h3
        simp only at h4
        rw [← h4]
      · simp at h
    · simp at h

/-- C10 witness: the theorem applied at concrete inputs on both entry
points. -/
theorem C10_witness :
    opt_title (compute_layout_config solver0 "" PipelineConfig.default) =
      some "rpdf output" ∧
    gen_title (generate_pdf solver0 renderer0 "" config_titled) = some "My Report" := by
  constructor
  · cases hp : compute_layout_config solver0 "" PipelineConfig.default with
    | none =>
      have : (compute_layout_config solver0 "" PipelineConfig.default).isSome = true := by
        decide
      rw [hp] at this
      exact absurd this (by simp)
    | some lc =>
      have := C10_title.1 solver0 "" PipelineConfig.default lc hp
      simp [opt_title, hp, this]
  · cases hp : generate_pdf solver0 renderer0 "" config_titled with
    | none =>
      have : (generate_pdf solver0 renderer0 "" config_titled).isSome = true := by decide
      rw [hp] at this
      exact absurd this (by simp)
    | some r =>
      cases r with
      | error e =>
        have : (gen_title (generate_pdf solver0 renderer0 "" config_titled)).isSome = true := by
          decide
        rw [hp] at this
        simp [gen_title] at this
      | ok pr =>
        have := C10_title.2 solver0 renderer0 "" config_titled pr.1 pr.2 (by rw [hp])
        simp [gen_title, hp, this, config_titled, PipelineConfig.default]

/-- C1 counterexample: a single content-bearing box of height 2000 pt on an
A4-like page (595 × 842, margin 40) is emitted at y = 40 with height 2000,
so its bottom edge 2040 exceeds `page_height + 1`: a Layout Box does not
lie within the page rectangle, and it straddles the page boundary. -/
theorem C1_counterexample :
    config_has_box_beyond_bottom 842 1 (paginate [tall_box] 595 842 40) = true := by
  norm_num [paginate, flatten_for_pagination, flatten_one, tall_box, paginate_step,
    emit_box, flush_page, is_table_like, split_table_box, positioned_to_layout_box,
    build_layout_box, build_layout_box_list, fmax, line_height_px,
    config_has_box_beyond_bottom, box_beyond_bottom, boxes_beyond_bottom, defaultStyle,
    PositionedBox.y, PositionedBox.height, PositionedBox.x, PositionedBox.width,
    PositionedBox.style, PositionedBox.content, PositionedBox.children,
    PositionedBox.page_break_before, PositionedBox.page_break_after,
    PositionedBox.page_break_inside_avoid, Color.is_transparent,
    LayoutBox.x, LayoutBox.y, LayoutBox.width, LayoutBox.height, LayoutBox.children,
    List.foldl, List.any, List.isEmpty]

/-- The attribute loop of `parse_element` makes no progress on the
remainder `@>`: for every amount of fuel it exhausts it (in the Rust
source this loop runs forever). -/
theorem attr_loop_stuck (f : Nat) (a : List (String × String)) :
    attr_loop f a ['@', '>'] = none := by
  induction f generalizing a with
  | zero => rfl
  | succ f ih =>
    rw [attr_loop]
    norm_num +decide [skip_whitespace, parse_attribute, parse_tag_name, is_name_char,
      parse_attr_value]
    exact ih _

/-- The attribute loop also exhausts any fuel starting from the remainder
` @>` (one leading space). -/
theorem attr_loop_stuck_sp (f : Nat) (a : List (String × String)) :
    attr_loop f a [' ', '@', '>'] = none := by
  cases f with
  | zero => rfl
  | succ f =>
    rw [attr_loop]
    norm_num +decide [skip_whitespace, parse_attribute, parse_tag_name, is_name_char,
      parse_attr_value]
    exact attr_loop_stuck f _

/-- `parse_element` exhausts any fuel on `<div @>`. -/
theorem parse_element_stuck (f : Nat) :
    parse_element f ['<', 'd', 'i', 'v', ' ', '@', '>'] = none := by
  cases f with
  | zero => rfl
  | succ f =>
    rw [parse_element]
    norm_num +decide [parse_tag_name, is_name_char, attr_loop_stuck_sp]

/-- `parse_node` exhausts any fuel on `<div @>`. -/
theorem parse_node_stuck (f : Nat) :
    parse_node f ['<', 'd', 'i', 'v', ' ', '@', '>'] = none := by
  cases f with
  | zero => rfl
  | succ f =>
    rw [parse_node]
    norm_num +decide [parse_element_stuck]

/-- C8 (code bug): on the input `<div @>` the parser makes no progress in
the attribute loop of `parse_element` — `parse_attribute` consumes no
input when the next character is not a name character and not `=`, `/`,
`>` or whitespace — so `parse_nodes` exhausts every amount of fuel. In
the Rust source, where the loop is not fuelled, `parse_html` loops
forever on this input instead of returning a DOM forest. -/
theorem C8_parser_divergence (fuel : Nat) :
    parse_nodes fuel ("<div @>".data) = none := by
  show parse_nodes fuel ['<', 'd', 'i', 'v', ' ', '@', '>'] = none
  cases fuel with
  | zero => rfl
  | succ f =>
    rw [parse_nodes]
    norm_num +decide [skip_whitespace_preserve, skip_whitespace, parse_node_stuck]

/-- `split_ws_go` on an empty input is empty for any fuel. -/
theorem split_ws_go_nil (f : Nat) : split_ws_go f [] = [] := by
  cases f <;> rfl

/-- Every token of `split_ws` is non-empty and whitespace-free (fuelled
form). -/
theorem split_ws_go_tokens (fuel : Nat) :
    ∀ (s : List Char), s.length ≤ fuel → ∀ t ∈ split_ws_go fuel s,
      t ≠ [] ∧ ∀ c ∈ t, c.isWhitespace = false := by
  induction fuel with
  | zero =>
    intro s hs t ht
    simp [split_ws_go] at ht
  | succ f ih =>
    intro s hs t ht
    match s, hs, ht with
    | [], _, ht => simp [split_ws_go] at ht
    | c :: cs, hs, ht =>
      rw [split_ws_go] at ht
      by_cases hw : c.isWhitespace
      · rw [if_pos hw] at ht
        have hlen : cs.length ≤ f := by
          simp only [List.length_cons] at hs
          omega
        exact ih cs hlen t ht
      · rw [if_neg hw] at ht
        rcases List.mem_cons.mp ht with h1 | h2
        · subst h1
          refine ⟨by simp, ?_⟩
          intro d hd
          rcases List.mem_cons.mp hd with rfl | hd2
          · simpa using hw
          · have := List.mem_takeWhile_imp hd2
            simpa using this
        · have hlen : (cs.dropWhile (fun d => !d.isWhitespace)).length ≤ f := by
            have h1 := (List.dropWhile_sublist (l := cs) (fun d => !d.isWhitespace)).length_le
            simp only [List.length_cons] at hs
            omega
          exact ih _ hlen t h2

/-- Every token of `split_ws` is non-empty and whitespace-free. -/
theorem split_ws_tokens (s : List Char) :
    ∀ t ∈ split_ws s, t ≠ [] ∧ ∀ c ∈ t, c.isWhitespace = false :=
  split_ws_go_tokens s.length s le_rfl

/-- A non-empty whitespace-free string is a single `split_ws` token. -/
theorem split_ws_single (t : List Char) (hne : t ≠ [])
    (hc : ∀ c ∈ t, c.isWhitespace = false) : split_ws t = [t] := by
  match t, hne, hc with
  | c :: cs, _, hc =>
    rw [split_ws]
    simp only [List.length_cons]
    rw [split_ws_go]
    rw [if_neg (by simp [hc c (List.mem_cons_self c cs)])]
    have h1 : cs.takeWhile (fun d => !d.isWhitespace) = cs :=
      List.takeWhile_eq_self_iff.mpr
        (by intro a ha; simp [hc a (List.mem_cons_of_mem _ ha)])
    have h2 : cs.dropWhile (fun d => !d.isWhitespace) = [] :=
      List.dropWhile_eq_nil_iff.mpr
        (by intro a ha; simp [hc a (List.mem_cons_of_mem _ ha)])
    rw [h1, h2, split_ws_go_nil]

/-- The greedy loop of `wrap_text` preserves the line property: every
produced line is a single word or has measured width at most the wrap
width. -/
theorem wrap_loop_good (measure : List Char → ℚ) (maxW : ℚ) (ws : List (List Char)) :
    ∀ (lines : List (List Char)) (current : List Char),
    (∀ w ∈ ws, w ≠ [] ∧ ∀ c ∈ w, c.isWhitespace = false) →
    (∀ l ∈ lines, (split_ws l).length ≤ 1 ∨ measure l ≤ maxW) →
    ((split_ws current).length ≤ 1 ∨ measure current ≤ maxW) →
    ∀ l ∈ wrap_loop measure maxW ws lines current,
      (split_ws l).length ≤ 1 ∨ measure l ≤ maxW := by
  induction ws with
  | nil =>
    intro lines current hws hlines hcur l hl
    rw [wrap_loop] at hl
    split at hl
    · exact hlines l hl
    · rcases List.mem_append.mp hl with h | h
      · exact hlines l h
      · rw [List.mem_singleton.mp h]
        exact hcur
  | cons w ws ih =>
    intro lines current hws hlines hcur l hl
    rw [wrap_loop] at hl
    have hw := hws w (List.mem_cons_self _ _)
    have hwgood : (split_ws w).length ≤ 1 ∨ measure w ≤ maxW := by
      left
      rw [split_ws_single w hw.1 hw.2]
      simp
    have htail : ∀ w' ∈ ws, w' ≠ [] ∧ ∀ c ∈ w', c.isWhitespace = false :=
      fun w' hw' => hws w' (List.mem_cons_of_mem _ hw')
    have hlines2 : ∀ l' ∈ lines ++ [current],
        (split_ws l').length ≤ 1 ∨ measure l' ≤ maxW := by
      intro l' hl'
      rcases List.mem_append.mp hl' with h | h
      · exact hlines l' h
      · rw [List.mem_singleton.mp h]
        exact hcur
    split at hl
    · split at hl
      · exact ih _ _ htail hlines2 hwgood l hl
      · exact ih _ _ htail hlines hwgood l hl
    · next hcNe =>
      split at hl
      · exact ih _ _ htail hlines2 hwgood l hl
      · next hcond =>
        refine ih _ _ htail hlines ?_ l hl
        right
        exact le_of_not_lt (fun hgt => hcond ⟨hgt, hcNe⟩)

/-- The paragraph fold of `wrap_text` preserves the line property. -/
theorem wrap_fold_good (measure : List Char → ℚ) (maxW : ℚ)
    (paras : List (List Char)) :
    ∀ (lines : List (List Char)),
    (∀ l ∈ lines, (split_ws l).length ≤ 1 ∨ measure l ≤ maxW) →
    ∀ l ∈ paras.foldl
      (fun lines para =>
        if split_ws para = [] then lines ++ [[]]
        else wrap_loop measure maxW (split_ws para) lines []) lines,
      (split_ws l).length ≤ 1 ∨ measure l ≤ maxW := by
  induction paras with
  | nil =>
    intro lines hlines l hl
    exact hlines l hl
  | cons para paras ih =>
    intro lines hlines l hl
    rw [List.foldl_cons] at hl
    refine ih _ ?_ l hl
    by_cases hp : split_ws para = []
    · rw [if_pos hp]
      intro l' hl'
      rcases List.mem_append.mp hl' with h | h
      · exact hlines l' h
      · rw [List.mem_singleton.mp h]
        left
        rw [split_ws]
        rw [split_ws_go_nil]
        simp
    · rw [if_neg hp]
      exact wrap_loop_good measure maxW (split_ws para) lines []
        (split_ws_tokens para) hlines
        (by left; rw [split_ws, split_ws_go_nil]; simp)

/-- C5 (confirmed): for a positive wrap width, every line of `wrap_text`
that contains at least two words has measured width at most the wrap
width; only single-word lines may exceed it. The measuring function is
arbitrary (it stands for `measure_text_width` at any font
configuration). -/
theorem C5_wrap_width_bound (measure : List Char → ℚ) (text : List Char)
    (max_width : ℚ) (hpos : 0 < max_width) (l : List Char)
    (hmem : l ∈ wrap_text measure text max_width)
    (hwords : 2 ≤ (split_ws l).length) : measure l ≤ max_width := by
  rw [wrap_text] at hmem
  split at hmem
  · next h =>
    rcases h with h | h
    · linarith
    · subst h
      rw [List.mem_singleton.mp hmem] at hwords
      rw [split_ws, split_ws_go_nil] at hwords
      simp at hwords
  · simp only [] at hmem
    split at hmem
    · rw [List.mem_singleton.mp hmem] at hwords
      rw [split_ws, split_ws_go_nil] at hwords
      simp at hwords
    · have hgood := wrap_fold_good measure max_width (split_on '\n' text) []
        (by intro l' hl'; simp at hl') l hmem
      rcases hgood with h1 | h2
      · omega
      · exact h2

/-- C5 witness: wrapping `a b c d` at width 40 with the heuristic measure
produces the two-word-plus line `a b c`, whose measured width is within
the wrap width. -/
theorem C5_witness :
    (0 : ℚ) < 40 ∧ "a b c".data ∈ wrap_text measure16 "a b c d".data 40 ∧
    2 ≤ (split_ws "a b c".data).length ∧ measure16 "a b c".data ≤ 40 := by
  have hmem : "a b c".data ∈ wrap_text measure16 "a b c d".data 40 := by
    norm_num +decide [wrap_text, split_on, split_ws, split_ws_go, wrap_loop, measure16,
      measure_text_width, List.foldl]
  exact ⟨by norm_num, hmem, by decide,
    C5_wrap_width_bound measure16 "a b c d".data 40 (by norm_num) "a b c".data hmem
      (by decide)⟩

/-- A foldl step that preserves a property preserves it over the whole
fold. -/
theorem foldl_preserve {α β : Type} (P : α → Prop) (f : α → β → α)
    (hf : ∀ a b, P a → P (f a b)) :
    ∀ (l : List β) (a : α), P a → P (l.foldl f a) := by
  intro l
  induction l with
  | nil => intro a ha; exact ha
  | cons b bs ih =>
    intro a ha
    rw [List.foldl_cons]
    exact ih _ (hf a b ha)

/-- The element of `getLast?` is a member of the list. -/
theorem mem_of_getLast?_eq {α : Type} {l : List α} {a : α}
    (h : l.getLast? = some a) : a ∈ l := by
  obtain ⟨hne, rfl⟩ := List.mem_getLast?_eq_getLast h
  exact List.getLast_mem hne

/-- Flushing a non-empty current page keeps all finished pages
non-empty. -/
theorem flush_ne (st : PagState) (y : ℚ) (h : pag_ne st)
    (hcur : st.current.boxes ≠ []) : pag_ne (flush_page st y) := by
  intro p hp
  simp only [flush_page] at hp
  rcases List.mem_append.mp hp with h1 | h1
  · exact h p h1
  · rw [List.mem_singleton.mp h1]
    exact hcur

/-- Emitting a box touches only the current page. -/
theorem emit_ne (st : PagState) (lb : LayoutBox) (h : pag_ne st) :
    pag_ne (emit_box st lb) := by
  intro p hp
  simp only [emit_box] at hp
  exact h p hp

/-- After an emit the current page is non-empty. -/
theorem emit_current_ne (st : PagState) (lb : LayoutBox) :
    (emit_box st lb).current.boxes ≠ [] := by
  simp [emit_box]

/-- An emit followed by an optional flush keeps finished pages
non-empty. -/
theorem emit_then_flush_ne (st : PagState) (lb : LayoutBox) (y : ℚ)
    (c : Prop) [Decidable c] (h : pag_ne st) :
    pag_ne (if c then flush_page (emit_box st lb) y else emit_box st lb) := by
  split
  · exact flush_ne _ _ (emit_ne st lb h) (emit_current_ne st lb)
  · exact emit_ne st lb h

/-- The table-split loop keeps finished pages non-empty. -/
theorem split_table_ne (chH m : ℚ) (b : PositionedBox) (st : PagState)
    (h : pag_ne st) : pag_ne (split_table_box chH m b st) := by
  unfold split_table_box
  refine foldl_preserve pag_ne _ ?_ b.children st h
  intro st' c hst'
  dsimp only []
  split
  · next hc =>
    exact emit_ne _ _ (flush_ne _ _ hst' (by simpa [List.isEmpty_iff] using hc.2))
  · exact emit_ne _ _ hst'

/-- One step of the pagination loop keeps finished pages non-empty. -/
theorem paginate_step_ne (chH m : ℚ) (st : PagState) (b : PositionedBox)
    (h : pag_ne st) : pag_ne (paginate_step chH m st b) := by
  unfold paginate_step
  dsimp only []
  split
  · next h1 =>
    have hst1 : pag_ne (flush_page st b.y) :=
      flush_ne _ _ h (by simpa [List.isEmpty_iff] using h1.2)
    split
    · next h2 =>
      split
      · exact split_table_ne _ _ _ _ hst1
      · exact emit_then_flush_ne _ _ _ _
          (flush_ne _ _ hst1 (by simpa [List.isEmpty_iff] using h2.2))
    · exact emit_then_flush_ne _ _ _ _ hst1
  · split
    · next h2 =>
      split
      · exact split_table_ne _ _ _ _ h
      · exact emit_then_flush_ne _ _ _ _
          (flush_ne _ _ h (by simpa [List.isEmpty_iff] using h2.2))
    · exact emit_then_flush_ne _ _ _ _ h

/-- C7 (confirmed): `paginate` always returns at least one page, and the
final page is non-empty, except that when the loop produced no pages at
all the result is exactly one empty page with index 0. -/
theorem C7_final_page (boxes : List PositionedBox) (W H M : ℚ) :
    (paginate boxes W H M).pages ≠ [] ∧
    ∀ pl, (paginate boxes W H M).pages.getLast? = some pl →
      pl.boxes ≠ [] ∨
      ((paginate boxes W H M).pages = [pl] ∧ pl.boxes = [] ∧ pl.page_index = 0) := by
  have hne : pag_ne (List.foldl (paginate_step (H - 2 * M) M)
      (PagState.mk [] (PageLayout.mk 0 []) 0)
      (flatten_for_pagination (H - 2 * M) boxes)) :=
    foldl_preserve pag_ne _ (fun a b ha => paginate_step_ne (H - 2 * M) M a b ha)
      _ _ (by intro p hp; simp at hp)
  have hpag : (paginate boxes W H M).pages =
      (if (if ¬ (List.foldl (paginate_step (H - 2 * M) M)
            (PagState.mk [] (PageLayout.mk 0 []) 0)
            (flatten_for_pagination (H - 2 * M) boxes)).current.boxes.isEmpty then
          (List.foldl (paginate_step (H - 2 * M) M)
            (PagState.mk [] (PageLayout.mk 0 []) 0)
            (flatten_for_pagination (H - 2 * M) boxes)).pages ++
            [(List.foldl (paginate_step (H - 2 * M) M)
              (PagState.mk [] (PageLayout.mk 0 []) 0)
              (flatten_for_pagination (H - 2 * M) boxes)).current]
        else (List.foldl (paginate_step (H - 2 * M) M)
            (PagState.mk [] (PageLayout.mk 0 []) 0)
            (flatten_for_pagination (H - 2 * M) boxes)).pages).isEmpty then
        [PageLayout.mk 0 []]
      else
        (if ¬ (List.foldl (paginate_step (H - 2 * M) M)
            (PagState.mk [] (PageLayout.mk 0 []) 0)
            (flatten_for_pagination (H - 2 * M) boxes)).current.boxes.isEmpty then
          (List.foldl (paginate_step (H - 2 * M) M)
            (PagState.mk [] (PageLayout.mk 0 []) 0)
            (flatten_for_pagination (H - 2 * M) boxes)).pages ++
            [(List.foldl (paginate_step (H - 2 * M) M)
              (PagState.mk [] (PageLayout.mk 0 []) 0)
              (flatten_for_pagination (H - 2 * M) boxes)).current]
        else (List.foldl (paginate_step (H - 2 * M) M)
            (PagState.mk [] (PageLayout.mk 0 []) 0)
            (flatten_for_pagination (H - 2 * M) boxes)).pages)) := rfl
  set st := List.foldl (paginate_step (H - 2 * M) M)
    (PagState.mk [] (PageLayout.mk 0 []) 0)
    (flatten_for_pagination (H - 2 * M) boxes) with hst
  rw [hpag]
  split
  · next hcur =>
    have hall : ∀ p ∈ st.pages ++ [st.current], p.boxes ≠ [] := by
      intro p hp
      rcases List.mem_append.mp hp with h1 | h1
      · exact hne p h1
      · rw [List.mem_singleton.mp h1]
        simp [List.isEmpty_iff] at hcur
        exact hcur
    split
    · refine ⟨by simp, ?_⟩
      intro pl hpl
      right
      simp only [List.getLast?_singleton, Option.some.injEq] at hpl
      rw [← hpl]
      exact ⟨rfl, rfl, rfl⟩
    · next hnemp =>
      refine ⟨by simp, ?_⟩
      intro pl hpl
      left
      exact hall pl (mem_of_getLast?_eq hpl)
  · split
    · refine ⟨by simp, ?_⟩
      intro pl hpl
      right
      simp only [List.getLast?_singleton, Option.some.injEq] at hpl
      rw [← hpl]
      exact ⟨rfl, rfl, rfl⟩
    · next hnemp =>
      refine ⟨by simpa [List.isEmpty_iff] using hnemp, ?_⟩
      intro pl hpl
      left
      exact hne pl (mem_of_getLast?_eq hpl)

/-- C7 witness: the theorem applied to the empty input, which produces the
single empty page. -/
theorem C7_witness :
    (paginate ([] : List PositionedBox) 595 842 40).pages ≠ [] ∧
    ((PageLayout.mk 0 ([] : List LayoutBox)).boxes ≠ [] ∨
      ((paginate ([] : List PositionedBox) 595 842 40).pages =
        [PageLayout.mk 0 []] ∧
       (PageLayout.mk 0 ([] : List LayoutBox)).boxes = [] ∧
       (PageLayout.mk 0 ([] : List LayoutBox)).page_index = 0)) :=
  ⟨(C7_final_page [] 595 842 40).1,
   (C7_final_page [] 595 842 40).2 (PageLayout.mk 0 []) rfl⟩

/-- A foldl step that preserves a property for list elements preserves it
over the whole fold. -/
theorem foldl_preserve_mem {α β : Type} (P : α → Prop) (f : α → β → α) :
    ∀ (l : List β), (∀ a, ∀ b ∈ l, P a → P (f a b)) →
    ∀ a, P a → P (l.foldl f a) := by
  intro l
  induction l with
  | nil => intro _ a ha; exact ha
  | cons b bs ih =>
    intro hf a ha
    rw [List.foldl_cons]
    exact ih (fun a' b' hb' ha' => hf a' b' (List.mem_cons_of_mem _ hb') ha')
      _ (hf a b (List.mem_cons_self _ _) ha)

/-- `fmax` against 0 is non-negative. -/
theorem fmax_zero_nonneg (a : ℚ) : 0 ≤ fmax a 0 := by
  unfold fmax
  split
  · exact le_refl 0
  · next h => linarith [not_lt.mp h]

/-- Membership characterisation of `pboxes_x_in_bounds`. -/
theorem pboxes_x_iff (pw : ℚ) (cs : List PositionedBox) :
    pboxes_x_in_bounds pw cs = true ↔ ∀ c ∈ cs, pbox_x_in_bounds pw c = true := by
  induction cs with
  | nil => simp [pboxes_x_in_bounds]
  | cons c cs ih =>
    rw [pboxes_x_in_bounds]
    simp [Bool.and_eq_true, ih]

/-- Membership characterisation of `pboxes_below`. -/
theorem pboxes_below_iff (py : ℚ) (cs : List PositionedBox) :
    pboxes_below py cs = true ↔
      ∀ c ∈ cs, py ≤ c.y ∧ pbox_children_below c = true := by
  induction cs with
  | nil => simp [pboxes_below]
  | cons c cs ih =>
    rw [pboxes_below]
    simp only [Bool.and_eq_true, decide_eq_true_eq, ih, List.mem_cons]
    constructor
    · rintro ⟨⟨h1, h2⟩, h3⟩ c' (rfl | hc')
      · exact ⟨h1, h2⟩
      · exact h3 c' hc'
    · intro h
      exact ⟨h c (Or.inl rfl), fun c' hc' => h c' (Or.inr hc')⟩

/-- Membership characterisation of `layout_boxes_in_bounds`. -/
theorem layout_boxes_iff (pw : ℚ) (ls : List LayoutBox) :
    layout_boxes_in_bounds pw ls = true ↔
      ∀ b ∈ ls, layout_box_in_bounds pw b = true := by
  induction ls with
  | nil => simp [layout_boxes_in_bounds]
  | cons b bs ih =>
    rw [layout_boxes_in_bounds]
    simp [Bool.and_eq_true, ih]

/-- Membership characterisation of `pboxes_wf`. -/
theorem pboxes_wf_iff (pw : ℚ) (bs : List PositionedBox) :
    pboxes_wf pw bs = true ↔
      ∀ b ∈ bs, pbox_x_in_bounds pw b = true ∧ pbox_children_below b = true := by
  unfold pboxes_wf
  rw [List.all_eq_true]
  constructor
  · intro h b hb
    have := h b hb
    simpa [Bool.and_eq_true] using this
  · intro h b hb
    simp [Bool.and_eq_true]
    exact h b hb

/-- Field characterisation of `layout_box_in_bounds`. -/
theorem layout_box_in_bounds_eq (pw : ℚ) (lb : LayoutBox) :
    layout_box_in_bounds pw lb =
      (decide (0 ≤ lb.x) && decide (lb.x + lb.width ≤ pw) && decide (0 ≤ lb.y) &&
        layout_boxes_in_bounds pw lb.children) := by
  cases lb
  rfl

/-- Field characterisation of `pbox_x_in_bounds`. -/
theorem pbox_x_eq (pw : ℚ) (b : PositionedBox) :
    pbox_x_in_bounds pw b =
      (decide (0 ≤ b.x) && decide (b.x + b.width ≤ pw) &&
        pboxes_x_in_bounds pw b.children) := by
  cases b
  rfl

/-- Field characterisation of `pbox_children_below`. -/
theorem pbox_below_eq (b : PositionedBox) :
    pbox_children_below b = pboxes_below b.y b.children := by
  cases b
  rfl

/-- The geometric fields of `build_layout_box`: the passed absolute
coordinates, the box's own size, and children built by the list
recursion. -/
theorem build_layout_box_parts (b : PositionedBox) (ax ay : ℚ) :
    (build_layout_box b ax ay).x = ax ∧ (build_layout_box b ax ay).y = ay ∧
    (build_layout_box b ax ay).width = b.width ∧
    (build_layout_box b ax ay).height = b.height ∧
    (build_layout_box b ax ay).children =
      build_layout_box_list b.children b.y ay := by
  cases b
  exact ⟨rfl, rfl, rfl, rfl, rfl⟩

mutual

/-- `build_layout_box` preserves the bounds: a positioned box whose subtree
is horizontally in bounds and whose children start below their parents,
converted at its own x and any non-negative absolute y, yields a layout
box that is recursively in bounds. -/
theorem build_in_bounds (pw : ℚ) (b : PositionedBox) (ay : ℚ)
    (hx : pbox_x_in_bounds pw b = true) (hb : pbox_children_below b = true)
    (hay : 0 ≤ ay) : layout_box_in_bounds pw (build_layout_box b b.x ay) = true := by
  match b, hx, hb with
  | PositionedBox.mk x y w h st c ch b1 b2 b3, hx, hb =>
    rw [pbox_x_eq] at hx
    rw [pbox_below_eq] at hb
    rw [layout_box_in_bounds_eq]
    obtain ⟨e1, e2, e3, _, e5⟩ :=
      build_layout_box_parts (PositionedBox.mk x y w h st c ch b1 b2 b3) x ay
    simp only [PositionedBox.x, PositionedBox.y, PositionedBox.width,
      PositionedBox.children, Bool.and_eq_true, decide_eq_true_eq] at hx hb e5 ⊢
    rw [e1, e2, e3, e5]
    exact ⟨⟨⟨hx.1.1, hx.1.2⟩, hay⟩, build_list_in_bounds pw ch y ay hx.2 hb hay⟩

/-- The child recursion of `build_layout_box` preserves the bounds. -/
theorem build_list_in_bounds (pw : ℚ) (cs : List PositionedBox) (py ay : ℚ)
    (hx : pboxes_x_in_bounds pw cs = true) (hb : pboxes_below py cs = true)
    (hay : 0 ≤ ay) :
    layout_boxes_in_bounds pw (build_layout_box_list cs py ay) = true := by
  match cs, hx, hb with
  | [], _, _ => rfl
  | c :: cs', hx, hb =>
    rw [pboxes_x_in_bounds] at hx
    simp only [Bool.and_eq_true] at hx
    rw [pboxes_below] at hb
    simp only [Bool.and_eq_true, decide_eq_true_eq] at hb
    rw [build_layout_box_list, layout_boxes_in_bounds]
    simp only [Bool.and_eq_true]
    constructor
    · exact build_in_bounds pw c (ay + (c.y - py)) hx.1 hb.1.2
        (by linarith [hb.1.1])
    · exact build_list_in_bounds pw cs' py ay hx.2 hb.2 hay

end

mutual

/-- `flatten_one` preserves forest well-formedness. -/
theorem flatten_one_wf (pw chH : ℚ) (b : PositionedBox)
    (hx : pbox_x_in_bounds pw b = true) (hb : pbox_children_below b = true) :
    pboxes_wf pw (flatten_one chH b) = true := by
  match b, hx, hb with
  | PositionedBox.mk x y w h st c ch b1 b2 b3, hx, hb =>
    rw [pbox_x_in_bounds] at hx
    simp only [Bool.and_eq_true, decide_eq_true_eq] at hx
    rw [pbox_children_below] at hb
    rw [flatten_one]
    split
    · refine flatten_wf pw chH ch ?_
      rw [pboxes_wf_iff]
      intro c' hc'
      exact ⟨(pboxes_x_iff pw ch).mp hx.2 c' hc',
        ((pboxes_below_iff y ch).mp hb c' hc').2⟩
    · rw [pboxes_wf_iff]
      intro b' hb'
      rw [List.mem_singleton.mp hb']
      constructor
      · rw [pbox_x_in_bounds]
        simp only [Bool.and_eq_true, decide_eq_true_eq]
        exact ⟨⟨hx.1.1, hx.1.2⟩, hx.2⟩
      · rw [pbox_children_below]
        exact hb

/-- `flatten_for_pagination` preserves forest well-formedness. -/
theorem flatten_wf (pw chH : ℚ) (bs : List PositionedBox)
    (h : pboxes_wf pw bs = true) :
    pboxes_wf pw (flatten_for_pagination chH bs) = true := by
  match bs, h with
  | [], _ => rfl
  | b :: bs', h =>
    rw [pboxes_wf_iff] at h
    rw [flatten_for_pagination, pboxes_wf_iff]
    intro b' hb'
    rcases List.mem_append.mp hb' with h1 | h1
    · have hone := flatten_one_wf pw chH b (h b (List.mem_cons_self _ _)).1
        (h b (List.mem_cons_self _ _)).2
      exact (pboxes_wf_iff pw _).mp hone b' h1
    · have hrest := flatten_wf pw chH bs'
        ((pboxes_wf_iff pw bs').mpr (fun b'' hb'' => h b'' (List.mem_cons_of_mem _ hb'')))
      exact (pboxes_wf_iff pw _).mp hrest b' h1

end

/-- `layout_boxes_in_bounds` over an append. -/
theorem layout_boxes_append (pw : ℚ) (xs ys : List LayoutBox) :
    layout_boxes_in_bounds pw (xs ++ ys) =
      (layout_boxes_in_bounds pw xs && layout_boxes_in_bounds pw ys) := by
  induction xs with
  | nil =>
    rw [List.nil_append]
    rfl
  | cons x xs ih =>
    rw [List.cons_append, layout_boxes_in_bounds, layout_boxes_in_bounds, ih,
      Bool.and_assoc]

/-- Flushing preserves the bounds invariant. -/
theorem flush_inv (pw : ℚ) (st : PagState) (y : ℚ) (h : pag_inv pw st) :
    pag_inv pw (flush_page st y) := by
  constructor
  · intro p hp
    simp only [flush_page] at hp
    rcases List.mem_append.mp hp with h1 | h1
    · exact h.1 p h1
    · rw [List.mem_singleton.mp h1]
      exact h.2
  · rfl

/-- Emitting an in-bounds box preserves the bounds invariant. -/
theorem emit_inv (pw : ℚ) (st : PagState) (lb : LayoutBox) (h : pag_inv pw st)
    (hlb : layout_box_in_bounds pw lb = true) : pag_inv pw (emit_box st lb) := by
  constructor
  · intro p hp
    simp only [emit_box] at hp
    exact h.1 p hp
  · show layout_boxes_in_bounds pw (st.current.boxes ++ [lb]) = true
    rw [layout_boxes_append]
    simp only [Bool.and_eq_true]
    exact ⟨h.2, by rw [layout_boxes_in_bounds, layout_boxes_in_bounds]; simp [hlb]⟩

/-- An emit of an in-bounds box followed by an optional flush preserves the
bounds invariant. -/
theorem emit_then_flush_inv (pw : ℚ) (st : PagState) (lb : LayoutBox) (y : ℚ)
    (c : Prop) [Decidable c] (h : pag_inv pw st)
    (hlb : layout_box_in_bounds pw lb = true) :
    pag_inv pw (if c then flush_page (emit_box st lb) y else emit_box st lb) := by
  split
  · exact flush_inv pw _ _ (emit_inv pw st lb h hlb)
  · exact emit_inv pw st lb h hlb

/-- A positioned box with in-bounds subtree emitted at a non-negative page
margin is in bounds. -/
theorem positioned_in_bounds (pw m yop : ℚ) (b : PositionedBox)
    (hx : pbox_x_in_bounds pw b = true) (hb : pbox_children_below b = true)
    (hm : 0 ≤ m) (hy : 0 ≤ yop) :
    layout_box_in_bounds pw (positioned_to_layout_box b m yop) = true := by
  rw [positioned_to_layout_box]
  exact build_in_bounds pw b (m + yop) hx hb (by linarith)

/-- The table-split loop preserves the bounds invariant. -/
theorem split_table_inv (pw chH m : ℚ) (b : PositionedBox) (st : PagState)
    (h : pag_inv pw st) (hm : 0 ≤ m)
    (hx : pbox_x_in_bounds pw b = true) (hb : pbox_children_below b = true) :
    pag_inv pw (split_table_box chH m b st) := by
  unfold split_table_box
  refine foldl_preserve_mem (pag_inv pw) _ b.children ?_ st h
  intro st' c hc hst'
  dsimp only []
  have hcx : pbox_x_in_bounds pw c = true := by
    match b, hx with
    | PositionedBox.mk x y w hh stl ct ch b1 b2 b3, hx =>
      rw [pbox_x_in_bounds] at hx
      simp only [Bool.and_eq_true] at hx
      exact (pboxes_x_iff pw ch).mp hx.2 c hc
  have hcb : pbox_children_below c = true := by
    match b, hb with
    | PositionedBox.mk x y w hh stl ct ch b1 b2 b3, hb =>
      rw [pbox_children_below] at hb
      exact ((pboxes_below_iff y ch).mp hb c hc).2
  split
  · next hcond =>
    exact emit_inv pw _ _ (flush_inv pw st' c.y hst')
      (positioned_in_bounds pw m _ c hcx hcb hm (fmax_zero_nonneg _))
  · exact emit_inv pw _ _ hst'
      (positioned_in_bounds pw m _ c hcx hcb hm (fmax_zero_nonneg _))

/-- One step of the pagination loop preserves the bounds invariant. -/
theorem paginate_step_inv (pw chH m : ℚ) (st : PagState) (b : PositionedBox)
    (h : pag_inv pw st) (hm : 0 ≤ m)
    (hx : pbox_x_in_bounds pw b = true) (hb : pbox_children_below b = true) :
    pag_inv pw (paginate_step chH m st b) := by
  unfold paginate_step
  dsimp only []
  split
  · have hst1 : pag_inv pw (flush_page st b.y) := flush_inv pw st b.y h
    split
    · split
      · exact split_table_inv pw chH m b _ hst1 hm hx hb
      · exact emit_then_flush_inv pw _ _ _ _ (flush_inv pw _ _ hst1)
          (positioned_in_bounds pw m _ b hx hb hm (fmax_zero_nonneg _))
    · exact emit_then_flush_inv pw _ _ _ _ hst1
        (positioned_in_bounds pw m _ b hx hb hm (fmax_zero_nonneg _))
  · split
    · split
      · exact split_table_inv pw chH m b _ h hm hx hb
      · exact emit_then_flush_inv pw _ _ _ _ (flush_inv pw _ _ h)
          (positioned_in_bounds pw m _ b hx hb hm (fmax_zero_nonneg _))
    · exact emit_then_flush_inv pw _ _ _ _ h
        (positioned_in_bounds pw m _ b hx hb hm (fmax_zero_nonneg _))

/-- C1 (corrected): for a non-negative page margin and an input forest that
is horizontally in bounds and has children starting at or below their
parents (what the layout stage produces), every Layout Box on every page
of the paginated output satisfies `0 ≤ x`, `x + width ≤ page_width` and
`0 ≤ y`, recursively. The bottom bound `y + height ≤ page_height` of the
original claim is NOT guaranteed (see the counterexample): the paginator
re-places an overflowing box on a fresh page only when the current page is
non-empty and never clips or splits a non-table box, so a box taller than
the content height extends below the page. -/
theorem C1_boxes_in_bounds (boxes : List PositionedBox) (pw ph m : ℚ)
    (hm : 0 ≤ m) (hwf : pboxes_wf pw boxes = true) :
    config_boxes_in_bounds pw (paginate boxes pw ph m) = true := by
  have hflat : pboxes_wf pw (flatten_for_pagination (ph - 2 * m) boxes) = true :=
    flatten_wf pw (ph - 2 * m) boxes hwf
  have hinv : pag_inv pw (List.foldl (paginate_step (ph - 2 * m) m)
      (PagState.mk [] (PageLayout.mk 0 []) 0)
      (flatten_for_pagination (ph - 2 * m) boxes)) := by
    refine foldl_preserve_mem (pag_inv pw) _ _ ?_ _ ?_
    · intro a b hb ha
      exact paginate_step_inv pw (ph - 2 * m) m a b ha hm
        ((pboxes_wf_iff pw _).mp hflat b hb).1
        ((pboxes_wf_iff pw _).mp hflat b hb).2
    · exact ⟨by intro p hp; simp at hp, rfl⟩
  have hpag : (paginate boxes pw ph m).pages =
      (if (if ¬ (List.foldl (paginate_step (ph - 2 * m) m)
            (PagState.mk [] (PageLayout.mk 0 []) 0)
            (flatten_for_pagination (ph - 2 * m) boxes)).current.boxes.isEmpty then
          (List.foldl (paginate_step (ph - 2 * m) m)
            (PagState.mk [] (PageLayout.mk 0 []) 0)
            (flatten_for_pagination (ph - 2 * m) boxes)).pages ++
            [(List.foldl (paginate_step (ph - 2 * m) m)
              (PagState.mk [] (PageLayout.mk 0 []) 0)
              (flatten_for_pagination (ph - 2 * m) boxes)).current]
        else (List.foldl (paginate_step (ph - 2 * m) m)
            (PagState.mk [] (PageLayout.mk 0 []) 0)
            (flatten_for_pagination (ph - 2 * m) boxes)).pages).isEmpty then
        [PageLayout.mk 0 []]
      else
        (if ¬ (List.foldl (paginate_step (ph - 2 * m) m)
            (PagState.mk [] (PageLayout.mk 0 []) 0)
            (flatten_for_pagination (ph - 2 * m) boxes)).current.boxes.isEmpty then
          (List.foldl (paginate_step (ph - 2 * m) m)
            (PagState.mk [] (PageLayout.mk 0 []) 0)
            (flatten_for_pagination (ph - 2 * m) boxes)).pages ++
            [(List.foldl (paginate_step (ph - 2 * m) m)
              (PagState.mk [] (PageLayout.mk 0 []) 0)
              (flatten_for_pagination (ph - 2 * m) boxes)).current]
        else (List.foldl (paginate_step (ph - 2 * m) m)
            (PagState.mk [] (PageLayout.mk 0 []) 0)
            (flatten_for_pagination (ph - 2 * m) boxes)).pages)) := rfl
  set st := List.foldl (paginate_step (ph - 2 * m) m)
    (PagState.mk [] (PageLayout.mk 0 []) 0)
    (flatten_for_pagination (ph - 2 * m) boxes) with hst
  unfold config_boxes_in_bounds
  rw [hpag, List.all_eq_true]
  intro p hp
  split at hp
  · have hall : ∀ q ∈ st.pages ++ [st.current],
        layout_boxes_in_bounds pw q.boxes = true := by
      intro q hq
      rcases List.mem_append.mp hq with h1 | h1
      · exact hinv.1 q h1
      · rw [List.mem_singleton.mp h1]
        exact hinv.2
    split at hp
    · rw [List.mem_singleton.mp hp]
      rfl
    · exact hall p hp
  · split at hp
    · rw [List.mem_singleton.mp hp]
      rfl
    · exact hinv.1 p hp

/-- C1 witness: a concrete in-bounds box paginated on a 595 × 842 page with
margin 40 produces only in-bounds boxes. -/
theorem C1_witness :
    config_boxes_in_bounds 595 (paginate [small_box] 595 842 40) = true :=
  C1_boxes_in_bounds [small_box] 595 842 40 (by norm_num)
    (by norm_num [pboxes_wf, pbox_x_in_bounds, pboxes_x_in_bounds,
      pbox_children_below, pboxes_below, small_box, List.all,
      PositionedBox.x, PositionedBox.y, PositionedBox.width])

end PdfForge
